import Mathlib

/-!
Verification development for the GPU scheduling visualizer core
(tools/binary_format.py, tools/log_parser.py, tools/preprocess_viz.py).

Byte buffers are modelled as `List Nat` with every entry < 256; multi-byte
integers are packed little-endian.  Python `struct.pack` raises on values
outside the field's range, so the packing functions return `Option` and
succeed exactly when all fields are in range.  32-bit float fields ("f" in
the struct formats) are modelled by their 32-bit patterns: the record holds
the 4-byte pattern as a `Nat < 2^32` and packing emits those bytes verbatim.
-/

namespace BinaryFormat

/-- `MAGIC = b"GPUVIZ01"` as raw bytes. -/
def MAGIC : List Nat := [71, 80, 85, 86, 73, 90, 48, 49]

/-- `VERSION = 1` as declared at the top of tools/binary_format.py. -/
def VERSION : Nat := 1

def HEADER_SIZE : Nat := 256

/-- `HEADER_PACKED_SIZE = struct.calcsize(HEADER_FORMAT)`: the 64 packed
bytes of the `<8sIIIBHxQQQQQ` layout (8-byte magic, three uint32, one uint8,
one uint16, one pad byte, five uint64 offsets). -/
def HEADER_PACKED_SIZE : Nat := 64

/-- `align_to_8(offset) = (offset + 7) & ~7`; for nonnegative ints this equals
rounding `offset + 7` down to a multiple of 8. -/
def align_to_8 (offset : Nat) : Nat := (offset + 7) / 8 * 8

/-- Little-endian byte encoding of `n` on `k` bytes (the value is reduced
mod `256^k`; packing checks the range before calling this). -/
def leBytes : Nat → Nat → List Nat
  | 0, _ => []
  | k + 1, n => n % 256 :: leBytes k (n / 256)

/-- Little-endian value of a byte list. -/
def leVal : List Nat → Nat
  | [] => 0
  | b :: bs => b + 256 * leVal bs

/-- Pack one unsigned field of width `k` bytes; `none` models `struct.error`
for an out-of-range value. -/
def packU (k n : Nat) : Option (List Nat) :=
  if n < 256 ^ k then some (leBytes k n) else none

/-- Pack a sequence of (width, value) unsigned fields. -/
def packSeq : List (Nat × Nat) → Option (List Nat)
  | [] => some []
  | (k, n) :: fs => do
    let b ← packU k n
    let r ← packSeq fs
    return b ++ r

/-- Read an unsigned little-endian field of width `k` at byte offset `off`. -/
def readU (k : Nat) (data : List Nat) (off : Nat) : Nat :=
  leVal ((data.drop off).take k)

/-- Read `n` consecutive unsigned fields of width `k` starting at `off`. -/
def readVec (k : Nat) : Nat → List Nat → Nat → List Nat
  | 0, _, _ => []
  | n + 1, data, off => readU k data off :: readVec k n data (off + k)

/-- The 9 arguments of `pack_header` (the magic and version are constants). -/
structure HeaderArgs where
  num_rounds : Nat
  num_jobs : Nat
  num_gpu_types : Nat
  total_gpus : Nat
  job_metadata_offset : Nat
  rounds_offset : Nat
  queue_offset : Nat
  index_offset : Nat
  config_json_offset : Nat
  deriving Repr, DecidableEq

/-- The fields of `HEADER_FORMAT = "<8sIIIBHxQQQQQ"` after the magic, in
pack order (the lone `x` pad byte is the (1,0) entry). -/
def headerFields (h : HeaderArgs) : List (Nat × Nat) :=
  [(4, VERSION), (4, h.num_rounds), (4, h.num_jobs), (1, h.num_gpu_types),
   (2, h.total_gpus), (1, 0), (8, h.job_metadata_offset), (8, h.rounds_offset),
   (8, h.queue_offset), (8, h.index_offset), (8, h.config_json_offset)]

/-- `pack_header`: pack the `<8sIIIBHxQQQQQ` layout then zero-pad to 256. -/
def pack_header (h : HeaderArgs) : Option (List Nat) := do
  let body ← packSeq (headerFields h)
  let packed := MAGIC ++ body
  return packed ++ List.replicate (HEADER_SIZE - packed.length) 0

/-- Result dictionary of `unpack_header`. -/
structure Header where
  magic : List Nat
  version : Nat
  num_rounds : Nat
  num_jobs : Nat
  num_gpu_types : Nat
  total_gpus : Nat
  job_metadata_offset : Nat
  rounds_offset : Nat
  queue_offset : Nat
  index_offset : Nat
  config_json_offset : Nat
  deriving Repr, DecidableEq

/-- `unpack_header`: `ValueError` on a short buffer or a bad magic, else the
fields of the `<8sIIIBHxQQQQQ` layout at their fixed offsets. -/
def unpack_header (data : List Nat) : Except String Header :=
  if data.length < HEADER_SIZE then .error "Header too short"
  else if data.take 8 ≠ MAGIC then .error "Invalid magic"
  else .ok
      { magic := data.take 8
        version := readU 4 data 8
        num_rounds := readU 4 data 12
        num_jobs := readU 4 data 16
        num_gpu_types := readU 1 data 20
        total_gpus := readU 2 data 21
        job_metadata_offset := readU 8 data 24
        rounds_offset := readU 8 data 32
        queue_offset := readU 8 data 40
        index_offset := readU 8 data 48
        config_json_offset := readU 8 data 56 }

/-- A job-metadata record; `duration` is the 32-bit pattern of the float32
field. -/
structure JobMeta where
  job_id : Nat
  type_id : Nat
  scale_factor : Nat
  arrival_round : Nat
  completion_round : Nat
  duration : Nat
  deriving Repr, DecidableEq

def JOB_METADATA_SIZE : Nat := 24

/-- Fields of `JOB_METADATA_FORMAT = "<IHBxIIfxxxx"` in pack order. -/
def jobMetaFields (j : JobMeta) : List (Nat × Nat) :=
  [(4, j.job_id), (2, j.type_id), (1, j.scale_factor), (1, 0),
   (4, j.arrival_round), (4, j.completion_round), (4, j.duration), (4, 0)]

/-- `pack_job_metadata`: pack into a 24-byte buffer. -/
def pack_job_metadata (j : JobMeta) : Option (List Nat) :=
  packSeq (jobMetaFields j)

/-- `unpack_job_metadata`. -/
def unpack_job_metadata (data : List Nat) : JobMeta :=
  { job_id := readU 4 data 0
    type_id := readU 2 data 4
    scale_factor := readU 1 data 6
    arrival_round := readU 4 data 8
    completion_round := readU 4 data 12
    duration := readU 4 data 16 }

def ROUND_BASE_SIZE : Nat := 28

/-- `compute_round_size`: `align8(28 + 2*num_gpu_types + 4*total_gpus)`. -/
def compute_round_size (num_gpu_types total_gpus : Nat) : Nat :=
  align_to_8 (ROUND_BASE_SIZE + num_gpu_types * 2 + total_gpus * 4)

/-- A round record at the codec level; float32 fields are 32-bit patterns. -/
structure RoundData where
  round : Nat
  sim_time : Nat
  utilization : Nat
  jobs_running : Nat
  jobs_queued : Nat
  jobs_completed : Nat
  avg_jct : Nat
  completion_rate : Nat
  gpu_used : List Nat
  allocations : List Nat
  deriving Repr, DecidableEq

/-- Fields of `ROUND_BASE_FORMAT = "<IffHHIff"` in pack order. -/
def roundBaseFields (rd : RoundData) : List (Nat × Nat) :=
  [(4, rd.round), (4, rd.sim_time), (4, rd.utilization), (2, rd.jobs_running),
   (2, rd.jobs_queued), (4, rd.jobs_completed), (4, rd.avg_jct),
   (4, rd.completion_rate)]

/-- Pack a vector with format `f"<{n}X"`: `struct.pack` requires exactly `n`
values, each in range. -/
def packVec (k n : Nat) (vals : List Nat) : Option (List Nat) :=
  if vals.length = n then packSeq (vals.map (fun v => (k, v))) else none

/-- `pack_round`: base struct, `<{G}H` gpu_used, `<{N}I` allocations, then
zero padding up to `compute_round_size`. -/
def pack_round (rd : RoundData) (num_gpu_types total_gpus : Nat) :
    Option (List Nat) := do
  let base ← packSeq (roundBaseFields rd)
  let gpu_used ← packVec 2 num_gpu_types rd.gpu_used
  let allocations ← packVec 4 total_gpus rd.allocations
  let data := base ++ gpu_used ++ allocations
  let target_size := compute_round_size num_gpu_types total_gpus
  return data ++ List.replicate (target_size - data.length) 0

/-- `unpack_round`. -/
def unpack_round (data : List Nat) (num_gpu_types total_gpus : Nat) :
    RoundData :=
  { round := readU 4 data 0
    sim_time := readU 4 data 4
    utilization := readU 4 data 8
    jobs_running := readU 2 data 12
    jobs_queued := readU 2 data 14
    jobs_completed := readU 4 data 16
    avg_jct := readU 4 data 20
    completion_rate := readU 4 data 24
    gpu_used := readVec 2 num_gpu_types data ROUND_BASE_SIZE
    allocations := readVec 4 total_gpus data (ROUND_BASE_SIZE + num_gpu_types * 2) }

/-- `pack_queue_entry`: `<H` length then `<{len}I` job ids (just the length
header when the queue is empty). -/
def pack_queue_entry (queue : List Nat) : Option (List Nat) := do
  let header ← packU 2 queue.length
  if queue.length = 0 then return header
  else
    let ids ← packVec 4 queue.length queue
    return header ++ ids

/-- `unpack_queue_entry`. -/
def unpack_queue_entry (data : List Nat) : List Nat :=
  let length := readU 2 data 0
  if length = 0 then [] else readVec 4 length data 2

/-- `pack_queue_index`: `<{n}Q` offsets. -/
def pack_queue_index (offsets : List Nat) : Option (List Nat) :=
  packVec 8 offsets.length offsets

/-- `unpack_queue_index`. -/
def unpack_queue_index (data : List Nat) (num_rounds : Nat) : List Nat :=
  readVec 8 num_rounds data 0

/-- Modelled from the spec: the version-2 sharing entry codec
(`pack_sharing_round` / `unpack_sharing_round`) is absent from src/ (only the
tests import it).  Per spec section 3, a sharing record holds, per round, an
ordered list of (GPU index, 4-slot occupancy array) pairs; mirroring the
queue-entry layout it is packed as a `<H` pair count followed, per pair, by a
`<H` GPU index (GPU counts are 16-bit in the header) and four `<I` slot
values (allocation slots are 32-bit job ids). -/
def pack_sharing_round (entries : List (Nat × List Nat)) :
    Option (List Nat) := do
  let header ← packU 2 entries.length
  let body ← packSeq (entries.flatMap (fun e =>
    (2, e.1) :: e.2.map (fun s => (4, s))))
  return header ++ body

/-- Modelled from the spec: inverse of `pack_sharing_round`. -/
def unpack_sharing_round (data : List Nat) : List (Nat × List Nat) :=
  let count := readU 2 data 0
  (List.range count).map (fun i =>
    let off := 2 + i * 18
    (readU 2 data off, readVec 4 4 data (off + 2)))

end BinaryFormat

namespace LogText

/-!
Model of tools/log_parser.py.  A log line is represented by the data the
extractors actually inspect: the substring membership tests, and the outcome
of each regular-expression search.  For the JSON-payload regexes the model
carries the result of `json.loads` on the matched group (`none` modelling
`json.JSONDecodeError`; the group is `\{.*\}`, so a successful parse is
always a JSON object).  An uncaught Python exception is modelled as
`Except.error`; `None` / "no match" is `Except.ok none`.
-/

/-- The Python exception kinds the extractors can raise or catch. -/
inductive PyErr where
  | typeError
  | valueError
  | keyError
  | jsonDecodeError
  deriving Repr, DecidableEq

/-- JSON values as returned by `json.loads`; numbers are modelled as exact
rationals. -/
inductive Json where
  | null
  | bool (b : Bool)
  | num (q : ℚ)
  | str (s : String)
  | arr (elems : List Json)
  | obj (fields : List (String × Json))

/-- The field list of a JSON object (duplicate keys possible in the raw
text; lookups take the last occurrence, as `json.loads` keeps the last
duplicate). -/
def JObj : Type := List (String × Json)

/-- `dict.get`: the value of the last occurrence of `k`, if any. -/
def jget (o : JObj) (k : String) : Option Json :=
  (o.reverse.find? (fun p => p.1 == k)).map (fun p => p.2)

/-- `dict.get(k, default)`. -/
def jgetD (o : JObj) (k : String) (v : Json) : Json := (jget o k).getD v

/-- The first-occurrence key order of a raw field list. -/
def jkeys : JObj → List String
  | [] => []
  | (k, _) :: rest => k :: (jkeys rest).filter (fun k2 => !(k2 == k))

/-- `dict.items()` order: first-occurrence key order, each key carrying the
value of its last duplicate (how `json.loads` builds the dict). -/
def jitems (o : JObj) : JObj :=
  (jkeys o).map (fun k => (k, (jget o k).getD Json.null))

/-- Whitespace as stripped by `str.strip` / tolerated by `int()`. -/
def isSpaceChar (c : Char) : Bool :=
  c == ' ' || c == '\t' || c == '\n' || c == '\r'

/-- `str.strip()`. -/
def stripWs (cs : List Char) : List Char :=
  ((cs.dropWhile isSpaceChar).reverse.dropWhile isSpaceChar).reverse

/-- Value of a nonempty all-digit character list. -/
def digitsVal : List Char → Option Nat
  | [] => none
  | cs =>
    if cs.all (fun c => c.isDigit) then
      some (cs.foldl (fun acc c => acc * 10 + (c.toNat - 48)) 0)
    else none

/-- `int()` applied to a string: strip whitespace, optional sign, decimal
digits, else `ValueError` (`none`).  (Underscore digit separators are not
modelled.) -/
def pyParseIntChars (cs : List Char) : Option Int :=
  match stripWs cs with
  | '-' :: rest => (digitsVal rest).map (fun n => -(n : Int))
  | '+' :: rest => (digitsVal rest).map (fun n => (n : Int))
  | rest => (digitsVal rest).map (fun n => (n : Int))

def pyParseIntStr (s : String) : Option Int := pyParseIntChars s.toList

/-- Did the computation finish without an uncaught exception? -/
def exOk {ε α : Type} : Except ε α → Bool
  | .ok _ => true
  | .error _ => false

/-- `float()` applied to a string: strip, optional sign, digits with an
optional decimal point (a modelled subset of the Python float grammar;
exponents and inf/nan literals are not modelled). -/
def pyParseFloatChars (cs : List Char) : Option ℚ :=
  let body : List Char → Option ℚ := fun ds =>
    match ds.splitOn '.' with
    | [a] => (digitsVal a).map (fun n => (n : ℚ))
    | [a, b] =>
      if a.isEmpty && b.isEmpty then none
      else if a.all (fun c => c.isDigit) && b.all (fun c => c.isDigit) then
        some ((a.foldl (fun acc c => acc * 10 + (c.toNat - 48)) 0 : ℚ) +
          (b.foldl (fun acc c => acc * 10 + (c.toNat - 48)) 0 : ℚ) /
            ((10 : ℚ) ^ b.length))
      else none
    | _ => none
  match stripWs cs with
  | '-' :: rest => (body rest).map (fun q => -q)
  | '+' :: rest => body rest
  | rest => body rest

/-- Truncation toward zero, as Python `int()` on a number. -/
def ratTrunc (q : ℚ) : Int := if 0 ≤ q then ⌊q⌋ else ⌈q⌉

/-- `int(v)` on a JSON value: numbers truncate, strings parse (`ValueError`
on failure), bools coerce; `null`, arrays and objects raise `TypeError`. -/
def pyInt : Json → Except PyErr Int
  | .num q => .ok (ratTrunc q)
  | .str s =>
    match pyParseIntStr s with
    | some n => .ok n
    | none => .error .valueError
  | .bool b => .ok (if b then 1 else 0)
  | _ => .error .typeError

def pyParseFloatStr (s : String) : Option ℚ := pyParseFloatChars s.toList

/-- `float(v)` on a JSON value. -/
def pyFloat : Json → Except PyErr ℚ
  | .num q => .ok q
  | .str s =>
    match pyParseFloatStr s with
    | some q => .ok q
    | none => .error .valueError
  | .bool b => .ok (if b then 1 else 0)
  | _ => .error .typeError

/-- An abstract log line: the extractors' view of the raw text.  The
`[Micro-task scheduled]` regex groups are carried as the matched text: the
job-id group `(\d+)` is digits only, hence carried as its value; the
worker-type group `(\w+)` as a string; the worker-ids group `([\d,\s]+)` as
the matched characters. -/
structure Line where
  hasEVENT : Bool := false
  hasArrivalTag : Bool := false
  hasCompleteTag : Bool := false
  hasALLOCATION : Bool := false
  hasTELEMETRY : Bool := false
  hasMicroTask : Bool := false
  eventMatch : Option (Option JObj) := none
  allocMatch : Option (Option JObj) := none
  telemMatch : Option (Option JObj) := none
  microJobId : Option Nat := none
  microType : Option String := none
  microIds : Option String := none

/-- The `except (json.JSONDecodeError, KeyError, ValueError): return None`
handler of the arrival/completion extractors: those three exception kinds
become "no match", `TypeError` propagates. -/
def catchNonType {α : Type} :
    Except PyErr (Option α) → Except PyErr (Option α)
  | .ok v => .ok v
  | .error .typeError => .error .typeError
  | .error _ => .ok none

/-- `data[k]`: `KeyError` when absent. -/
def getKey (o : JObj) (k : String) : Except PyErr Json :=
  match jget o k with
  | some v => .ok v
  | none => .error .keyError

/-- `data.get('event') != 'job_arrival'`-style comparison: true only when
the key holds exactly that string. -/
def jsonIsStr (v : Option Json) (s : String) : Bool :=
  match v with
  | some (.str t) => t == s
  | _ => false

/-- Result of `parse_job_arrival`; `job_type` and `scale_factor` are the raw
JSON values (the source stores them unconverted). -/
structure ArrivalD where
  job_id : Int
  job_type : Json
  scale_factor : Json
  gpu_request : ℚ

/-- The body of `parse_job_arrival`'s `try` block on a parsed payload, in
Python's evaluation order: the event-kind test, then `int(data['job_id'])`,
`data['job_type']`, `data['scale_factor']`, and
`float(data.get('gpu_request', 1.0))`; the first failure wins. -/
def arrivalTryBody (data : JObj) : Except PyErr (Option ArrivalD) :=
  if !(jsonIsStr (jget data "event") "job_arrival") then .ok none
  else
    match jget data "job_id" with
    | none => .error .keyError
    | some jidv =>
      match pyInt jidv with
      | .error e => .error e
      | .ok jid =>
        match jget data "job_type" with
        | none => .error .keyError
        | some jtype =>
          match jget data "scale_factor" with
          | none => .error .keyError
          | some sf =>
            match pyFloat (jgetD data "gpu_request" (Json.num 1)) with
            | .error e => .error e
            | .ok greq =>
              .ok (some
                { job_id := jid, job_type := jtype,
                  scale_factor := sf, gpu_request := greq })

/-- `parse_job_arrival`. -/
def parse_job_arrival (l : Line) : Except PyErr (Option ArrivalD) :=
  if !(l.hasEVENT && l.hasArrivalTag) then .ok none
  else
    match l.eventMatch with
    | none => .ok none
    | some payload =>
      catchNonType
        (match payload with
        | none => .error .jsonDecodeError
        | some data => arrivalTryBody data)

/-- Result of `parse_job_completion`. -/
structure CompletionD where
  job_id : Int
  duration : ℚ

/-- The body of `parse_job_completion`'s `try` block: the event-kind test,
`int(data['job_id'])`, then `float(data['duration'])`. -/
def completionTryBody (data : JObj) : Except PyErr (Option CompletionD) :=
  if !(jsonIsStr (jget data "event") "job_complete") then .ok none
  else
    match jget data "job_id" with
    | none => .error .keyError
    | some jidv =>
      match pyInt jidv with
      | .error e => .error e
      | .ok jid =>
        match jget data "duration" with
        | none => .error .keyError
        | some durv =>
          match pyFloat durv with
          | .error e => .error e
          | .ok dur =>
            .ok (some { job_id := jid, duration := dur })

/-- `parse_job_completion`; same `try` structure as `parse_job_arrival`. -/
def parse_job_completion (l : Line) : Except PyErr (Option CompletionD) :=
  if !(l.hasEVENT && l.hasCompleteTag) then .ok none
  else
    match l.eventMatch with
    | none => .ok none
    | some payload =>
      catchNonType
        (match payload with
        | none => .error .jsonDecodeError
        | some data => completionTryBody data)

/-- Result of `parse_allocation`. -/
structure AllocD where
  job_id : Nat
  worker_type : String
  worker_ids : List Int

/-- The list comprehension `[int(x.strip()) for x in ids.split(',')]`:
the first piece `int()` rejects raises `ValueError`. -/
def parseWorkerPieces : List (List Char) → Except PyErr (List Int)
  | [] => .ok []
  | p :: ps =>
    match pyParseIntChars p with
    | none => .error .valueError
    | some n =>
      match parseWorkerPieces ps with
      | .error e => .error e
      | .ok ns => .ok (n :: ns)

/-- `parse_allocation`: no try/except — `int(x.strip())` on a blank
worker-id piece raises an uncaught `ValueError`. -/
def parse_allocation (l : Line) : Except PyErr (Option AllocD) :=
  if !l.hasMicroTask then .ok none
  else
    match l.microJobId, l.microType, l.microIds with
    | some jid, some wtype, some ids =>
      match parseWorkerPieces (ids.toList.splitOn ',') with
      | .error e => .error e
      | .ok ws =>
        .ok (some { job_id := jid, worker_type := wtype, worker_ids := ws })
    | _, _, _ => .ok none

/-- Result entry of `parse_allocation_bulk`; `worker_ids` is the raw JSON
value of the mapping (the source does not convert it). -/
structure BulkD where
  job_id : Int
  worker_ids : Json

/-- The `for job_id_str, worker_ids in data.items()` loop:
`int(job_id_str)` on a non-numeric key raises `ValueError`. -/
def bulkEntries : JObj → Except PyErr (List BulkD)
  | [] => .ok []
  | kv :: rest =>
    match pyParseIntStr kv.1 with
    | none => .error .valueError
    | some jid =>
      match bulkEntries rest with
      | .error e => .error e
      | .ok results => .ok ({ job_id := jid, worker_ids := kv.2 } :: results)

/-- `parse_allocation_bulk`: only `json.JSONDecodeError` is caught (and
only around `json.loads`); the key conversion loop runs outside the try. -/
def parse_allocation_bulk (l : Line) : Except PyErr (Option (List BulkD)) :=
  if !l.hasALLOCATION then .ok none
  else
    match l.allocMatch with
    | none => .ok none
    | some payload =>
      match payload with
      | none => .ok none
      | some data =>
        match bulkEntries (jitems data) with
        | .error e => .error e
        | .ok results => .ok (some results)

/-- A JSON value `int()`/`float()` can coerce without raising `TypeError`
(number, string, or bool; `null`, arrays and objects raise). -/
def scalarOk : Json → Bool
  | .num _ => true
  | .str _ => true
  | .bool _ => true
  | _ => false

def scalarOkOpt : Option Json → Bool
  | some v => scalarOk v
  | none => true

/-- The arrival payload carries coercible values in the two fields the
extractor converts (`job_id` and the `gpu_request` default chain). -/
def arrivalPayloadSafe (l : Line) : Bool :=
  match l.eventMatch with
  | some (some o) =>
    scalarOkOpt (jget o "job_id") &&
      scalarOk (jgetD o "gpu_request" (Json.num 1))
  | _ => true

/-- The completion payload carries coercible `job_id` and `duration`
values. -/
def completionPayloadSafe (l : Line) : Bool :=
  match l.eventMatch with
  | some (some o) =>
    scalarOkOpt (jget o "job_id") && scalarOkOpt (jget o "duration")
  | _ => true

/-- Every comma-separated piece of the worker-ids group parses as an int
(in particular, no blank piece). -/
def workerIdsSafe (l : Line) : Bool :=
  match l.microIds with
  | some ids =>
    (ids.toList.splitOn ',').all (fun p => (pyParseIntChars p).isSome)
  | none => true

/-- Every job-id key of the bulk mapping is numeric. -/
def bulkKeysSafe (l : Line) : Bool :=
  match l.allocMatch with
  | some (some o) => (jitems o).all (fun kv => (pyParseIntStr kv.1).isSome)
  | _ => true

/-- `parse_telemetry`: returns the parsed payload dict, or `None`; the only
exception that can arise (`json.JSONDecodeError`) is caught. -/
def parse_telemetry (l : Line) : Except PyErr (Option JObj) :=
  if !l.hasTELEMETRY then .ok none
  else
    match l.telemMatch with
    | none => .ok none
    | some payload =>
      match payload with
      | none => .ok none
      | some data => .ok (some data)

end LogText

namespace Viz

/-!
Model of tools/preprocess_viz.py.  The pipeline is embedded at the level of
typed events (the tagged-variant view of the extractors' outputs): each log
line is either one recognized event or `other` (noise).  Python dicts are
modelled as association lists with insert-or-overwrite (`dSet`) keeping the
insertion position, and lookup of the stored value (`dGet`); Python sets as
duplicate-free lists in insertion order (set iteration order is
implementation-defined in CPython; only membership matters to the claims).
Float arithmetic (`jct` sums, `gpu_request`, the downsampling stride) is
modelled with exact rationals.
-/

/-- A telemetry payload: the fields the pipeline reads from the parsed
JSON dict, each `Option` since the source reads them with `.get` defaults.
`windowed_completion_rate := none` covers both a missing key and a JSON
`null` (both collapse to 0 through `telem.get(...) or 0`).  `used_counts`
holds the `<name>_used` entries. -/
structure Telem where
  round : Int
  sim_time : Option ℚ := none
  utilization : Option ℚ := none
  jobs_running : Option Int := none
  jobs_queued : Option Int := none
  jobs_completed_total : Option Int := none
  windowed_completion_rate : Option ℚ := none
  used_counts : List (String × Int) := []
  deriving Repr, DecidableEq

structure Arrival where
  job_id : Int
  job_type : String
  scale_factor : Int
  gpu_request : ℚ := 1
  deriving Repr, DecidableEq

structure Completion where
  job_id : Int
  duration : ℚ
  deriving Repr, DecidableEq

/-- One log line as seen by the aggregation loops: the event the extractor
chain recognizes on it, or `other`. -/
inductive Event where
  | arrival (a : Arrival)
  | completion (c : Completion)
  | allocSingle (job_id : Int) (worker_ids : List Int)
  | allocBulk (allocs : List (Int × List Int))
  | telemetry (t : Telem)
  | other
  deriving Repr, DecidableEq

/-- Python dict lookup. -/
def dGet {κ ν : Type} [BEq κ] (d : List (κ × ν)) (k : κ) : Option ν :=
  (d.find? (fun p => p.1 == k)).map (fun p => p.2)

/-- Python dict assignment: overwrite in place, or append a new entry. -/
def dSet {κ ν : Type} [BEq κ] (d : List (κ × ν)) (k : κ) (v : ν) :
    List (κ × ν) :=
  if d.any (fun p => p.1 == k) then
    d.map (fun p => if p.1 == k then (k, v) else p)
  else d ++ [(k, v)]

/-- Python `set.add`. -/
def sInsert {α : Type} [BEq α] (s : List α) (x : α) : List α :=
  if s.contains x then s else s ++ [x]

/-- Python `set |= other`. -/
def sUnion {α : Type} [BEq α] (s t : List α) : List α := t.foldl sInsert s

/-- Python `set -= other`. -/
def sDiff {α : Type} [BEq α] (s t : List α) : List α :=
  s.filter (fun x => !(t.contains x))

/-- Stable insertion: place `x` after every element `y` with `le y x`
(insertion via `isortBy` models Python's stable `sorted`). -/
def insLE {α : Type} (le : α → α → Bool) (x : α) : List α → List α
  | [] => [x]
  | y :: ys => if le y x then y :: insLE le x ys else x :: y :: ys

/-- Stable sort by `le` (models `sorted(...)`). -/
def isortBy {α : Type} (le : α → α → Bool) (l : List α) : List α :=
  l.foldl (fun acc x => insLE le x acc) []

structure GpuType where
  name : String
  count : Int
  deriving Repr, DecidableEq

/-- `parse_cluster_spec`: named (`=`/`,`) or legacy colon-separated format;
`ValueError` (from `int()` or tuple unpacking) and the explicit "Cannot
parse" error are modelled as `Except.error`. -/
def parse_cluster_spec (spec : String) : Except String (List GpuType) :=
  if spec.toList.contains '=' || spec.toList.contains ',' then do
    (spec.toList.splitOn ',').mapM (fun part => do
      let nc ←
        if part.contains '=' then
          match part.splitOn '=' with
          | [n, c] => Except.ok (n, c)
          | _ => Except.error "ValueError: unpack"
        else if part.contains ':' then
          match part.splitOn ':' with
          | [n, c] => Except.ok (n, c)
          | _ => Except.error "ValueError: unpack"
        else Except.error "Cannot parse cluster spec part"
      match LogText.pyParseIntChars nc.2 with
      | some n =>
        Except.ok { name := String.mk (LogText.stripWs nc.1), count := n }
      | none => Except.error "ValueError: int")
  else do
    let counts ← (spec.toList.splitOn ':').mapM (fun x =>
      match LogText.pyParseIntChars x with
      | some n => Except.ok n
      | none => Except.error "ValueError: int")
    let defaultNames := ["k80", "p100", "v100", "a100", "h100", "b200"]
    return counts.enum.map (fun p =>
      { name := if p.1 < defaultNames.length then defaultNames.getD p.1 ""
                else "gpu" ++ toString p.1,
        count := p.2 })

/-- `JOB_TYPE_CATEGORIES`, in source (insertion) order. -/
def JOB_TYPE_CATEGORIES : List (String × String) :=
  [("ResNet", "resnet"), ("VGG", "vgg"), ("Inception", "inception"),
   ("Transformer", "transformer"), ("BERT", "transformer"),
   ("LM", "language_model"), ("GPT", "language_model"),
   ("Recommendation", "recommendation"), ("CycleGAN", "cyclegan")]

/-- Does `hay` start with `needle`? -/
def startsWithCL : List Char → List Char → Bool
  | [], _ => true
  | _ :: _, [] => false
  | n :: ns, h :: hs => n == h && startsWithCL ns hs

/-- Python `needle in hay` substring containment. -/
def containsSub (needle : List Char) : List Char → Bool
  | [] => needle.isEmpty
  | c :: rest => startsWithCL needle (c :: rest) || containsSub needle rest

/-- `get_job_category`: first matching substring key wins. -/
def get_job_category (job_type : String) : String :=
  match JOB_TYPE_CATEGORIES.find?
      (fun kv => containsSub kv.1.toList job_type.toList) with
  | some kv => kv.2
  | none => "other"

/-- Python `round()` (banker's rounding, half to even), on exact rationals
(the source computes `gpu_req / 0.25` in floats; quarters are exact). -/
def pyRound (q : ℚ) : Int :=
  let f := ⌊q⌋
  if q - f < 1 / 2 then f
  else if 1 / 2 < q - f then f + 1
  else if f % 2 = 0 then f else f + 1

/-- `_fill_quarter_slots`: fill the first empty positions, at most
`n` of them (`n` counts the quarters still to fill). -/
def _fill_quarter_slots (job_id : Int) : List Int → Int → List Int
  | [], _ => []
  | s :: rest, n =>
    if n ≤ 0 then s :: rest
    else if s == 0 then job_id :: _fill_quarter_slots job_id rest (n - 1)
    else s :: _fill_quarter_slots job_id rest n

/-- The per-round allocation state: the primary allocation vector and the
quarter-slot occupancy map. -/
structure AllocState where
  allocations : List Int
  gpu_slots : List (Int × List Int)
  deriving Repr, DecidableEq

/-- `_process_allocation`. -/
def _process_allocation (worker_id job_id : Int) (total_gpus : Int)
    (gpu_req : ℚ) (st : AllocState) : AllocState :=
  if !(0 ≤ worker_id && worker_id < total_gpus) then st
  else
    let num_quarters := max 1 (pyRound (gpu_req / (1 / 4)))
    let allocations :=
      if st.allocations.getD worker_id.toNat 0 == 0 then
        st.allocations.set worker_id.toNat job_id
      else st.allocations
    if num_quarters < 4 then
      let slots := (dGet st.gpu_slots worker_id).getD [0, 0, 0, 0]
      { allocations := allocations,
        gpu_slots := dSet st.gpu_slots worker_id
          (_fill_quarter_slots job_id slots num_quarters) }
    else
      if (dGet st.gpu_slots worker_id).isSome then
        { allocations := allocations,
          gpu_slots := dSet st.gpu_slots worker_id
            [job_id, job_id, job_id, job_id] }
      else { allocations := allocations, gpu_slots := st.gpu_slots }

/-- The `for worker_id in ...: _process_allocation(...)` loop shared by the
bulk and single allocation branches. -/
def processWorkers (job_id total_gpus : Int) (gpu_req : ℚ)
    (worker_ids : List Int) (st : AllocState) : AllocState :=
  worker_ids.foldl
    (fun s w => _process_allocation w job_id total_gpus gpu_req s) st

/-- The allocation-line handling common to the single-pass loop and
`_parse_allocations_for_rounds` (both repeat the same bulk and single
blocks): process every worker of a bulk or single allocation event against
the per-round allocation state; any other event leaves it unchanged. -/
def processAllocEvent (total_gpus : Int)
    (job_gpu_request : List (Int × ℚ)) (e : Event) (st : AllocState) :
    AllocState :=
  match e with
  | .allocBulk allocs =>
    allocs.foldl
      (fun s entry =>
        processWorkers entry.1 total_gpus
          ((dGet job_gpu_request entry.1).getD 1) entry.2 s) st
  | .allocSingle job_id worker_ids =>
    processWorkers job_id total_gpus
      ((dGet job_gpu_request job_id).getD 1) worker_ids st
  | _ => st

structure Job where
  job_id : Int
  type_id : Nat
  scale_factor : Int
  arrival_round : Int
  completion_round : Int
  duration : ℚ
  deriving Repr, DecidableEq

structure JobTypeRec where
  id : Nat
  name : String
  category : String
  deriving Repr, DecidableEq

/-- The source records each job dict both in `jobs` and in
`job_index[job_id]` (the latest dict for that id) and patches it in place on
completion; functionally: patch the last record with that id, if any
(`if completion['job_id'] in job_index`). -/
def patchLastJob : List Job → Int → Int → ℚ → List Job
  | [], _, _, _ => []
  | j :: rest, cid, r, d =>
    if rest.any (fun x => x.job_id == cid) then j :: patchLastJob rest cid r d
    else if j.job_id == cid then
      { j with completion_round := r, duration := d } :: rest
    else j :: rest

/-- The mutable locals of the single-pass loop (and, ignoring the
allocation-tracking fields, of `_parse_jobs_and_telemetry`). -/
structure ScanState where
  jobs : List Job
  job_type_map : List (String × Nat)
  job_types_list : List JobTypeRec
  job_gpu_request : List (Int × ℚ)
  telemetry_data : List Telem
  newly_completed_by_round : List (Int × List Int)
  pending_completed_ids : List Int
  avg_jct_by_round : List (Int × ℚ)
  jct_running_sum : ℚ
  jct_running_count : Nat
  has_sharing : Bool
  current_round : Int
  allocations_by_round : List (Int × List Int)
  gpu_slots_by_round : List (Int × List (Int × List Int))
  alloc : AllocState
  deriving Repr, DecidableEq

def initScan (total_gpus : Int) : ScanState :=
  { jobs := [], job_type_map := [], job_types_list := [],
    job_gpu_request := [], telemetry_data := [],
    newly_completed_by_round := [], pending_completed_ids := [],
    avg_jct_by_round := [], jct_running_sum := 0, jct_running_count := 0,
    has_sharing := false, current_round := -1, allocations_by_round := [],
    gpu_slots_by_round := [],
    alloc := { allocations := List.replicate total_gpus.toNat 0,
               gpu_slots := [] } }

/-- The job-arrival block (duplicated verbatim in the single-pass loop and
in `_parse_jobs_and_telemetry`). -/
def stepArrival (a : Arrival) (st : ScanState) : ScanState :=
  let st :=
    if (dGet st.job_type_map a.job_type).isSome then st
    else
      let type_id := st.job_types_list.length
      { st with
        job_type_map := st.job_type_map ++ [(a.job_type, type_id)],
        job_types_list := st.job_types_list ++
          [{ id := type_id, name := a.job_type,
             category := get_job_category a.job_type }] }
  let gpu_req := a.gpu_request
  let st :=
    { st with
      job_gpu_request := dSet st.job_gpu_request a.job_id gpu_req,
      has_sharing := st.has_sharing || decide (gpu_req < 1) }
  let jd : Job :=
    { job_id := a.job_id,
      type_id := (dGet st.job_type_map a.job_type).getD 0,
      scale_factor := a.scale_factor,
      arrival_round := max 0 st.current_round,
      completion_round := 0, duration := 0 }
  { st with jobs := st.jobs ++ [jd] }

/-- The job-completion block (same duplication as `stepArrival`). -/
def stepCompletion (c : Completion) (st : ScanState) : ScanState :=
  { st with
    jct_running_sum := st.jct_running_sum + c.duration,
    jct_running_count := st.jct_running_count + 1,
    pending_completed_ids := sInsert st.pending_completed_ids c.job_id,
    jobs := patchLastJob st.jobs c.job_id (max 0 st.current_round)
      c.duration }

/-- The completion-set / average-JCT / round-advance part of the telemetry
block, common to both loops. -/
def stepTelemetryMeta (t : Telem) (st : ScanState) : ScanState :=
  let st :=
    if !st.pending_completed_ids.isEmpty then
      { st with
        newly_completed_by_round :=
          dSet st.newly_completed_by_round t.round st.pending_completed_ids,
        pending_completed_ids := [] }
    else st
  let st :=
    if 0 < st.jct_running_count then
      { st with
        avg_jct_by_round := dSet st.avg_jct_by_round t.round
          (st.jct_running_sum / (st.jct_running_count : ℚ)) }
    else st
  { st with current_round := t.round,
            telemetry_data := st.telemetry_data ++ [t] }

/-- The telemetry block of the single-pass loop: snapshot the allocation
state for the new round (all-idle for round 0), then the metadata part,
then reset the per-round accumulators. -/
def stepTelemetrySingle (total_gpus : Int) (t : Telem) (st : ScanState) :
    ScanState :=
  let st :=
    if 0 < t.round then
      let st2 :=
        { st with
          allocations_by_round :=
            dSet st.allocations_by_round t.round st.alloc.allocations }
      if st.has_sharing && !st.alloc.gpu_slots.isEmpty then
        { st2 with
          gpu_slots_by_round :=
            dSet st2.gpu_slots_by_round t.round st.alloc.gpu_slots }
      else st2
    else
      { st with
        allocations_by_round := dSet st.allocations_by_round 0
          (List.replicate total_gpus.toNat 0) }
  let st := stepTelemetryMeta t st
  { st with
    alloc := { allocations := List.replicate total_gpus.toNat 0,
               gpu_slots := [] } }

/-- One iteration of the single-pass loop, dispatching in source order
(arrival, completion, bulk allocation, single allocation, telemetry). -/
def singleStep (total_gpus : Int) (st : ScanState) (e : Event) : ScanState :=
  match e with
  | .arrival a => stepArrival a st
  | .completion c => stepCompletion c st
  | .allocBulk allocs =>
    { st with
      alloc := processAllocEvent total_gpus st.job_gpu_request
        (.allocBulk allocs) st.alloc }
  | .allocSingle job_id worker_ids =>
    { st with
      alloc := processAllocEvent total_gpus st.job_gpu_request
        (.allocSingle job_id worker_ids) st.alloc }
  | .telemetry t => stepTelemetrySingle total_gpus t st
  | .other => st

/-- The single-pass (`max_rounds == 0`) scan. -/
def singleScan (log : List Event) (total_gpus : Int) : ScanState :=
  log.foldl (singleStep total_gpus) (initScan total_gpus)

/-- One iteration of `_parse_jobs_and_telemetry` (allocation lines are
skipped entirely). -/
def pass1Step (st : ScanState) (e : Event) : ScanState :=
  match e with
  | .arrival a => stepArrival a st
  | .completion c => stepCompletion c st
  | .telemetry t => stepTelemetryMeta t st
  | _ => st

/-- `_parse_jobs_and_telemetry`. -/
def _parse_jobs_and_telemetry (log : List Event) : ScanState :=
  log.foldl pass1Step (initScan 0)

/-- The mutable locals of `_parse_allocations_for_rounds`. -/
structure Pass2State where
  allocations_by_round : List (Int × List Int)
  gpu_slots_by_round : List (Int × List (Int × List Int))
  alloc : AllocState
  current_round : Int
  keep_current : Bool
  deriving Repr, DecidableEq

/-- One iteration of `_parse_allocations_for_rounds`: allocation lines are
processed only while `keep_current`; a telemetry line snapshots (when kept),
resets, and re-evaluates `keep_current` for the next span. -/
def pass2Step (total_gpus : Int) (job_gpu_request : List (Int × ℚ))
    (sampled_rounds : Option (List Int)) (has_sharing : Bool)
    (st : Pass2State) (e : Event) : Pass2State :=
  match e with
  | .allocBulk allocs =>
    if st.keep_current then
      { st with
        alloc := processAllocEvent total_gpus job_gpu_request
          (.allocBulk allocs) st.alloc }
    else st
  | .allocSingle job_id worker_ids =>
    if st.keep_current then
      { st with
        alloc := processAllocEvent total_gpus job_gpu_request
          (.allocSingle job_id worker_ids) st.alloc }
    else st
  | .telemetry t =>
    let new_round := t.round
    let st2 :=
      if st.keep_current then
        if 0 < new_round then
          let s :=
            { st with
              allocations_by_round :=
                dSet st.allocations_by_round new_round
                  st.alloc.allocations }
          if has_sharing && !st.alloc.gpu_slots.isEmpty then
            { s with
              gpu_slots_by_round :=
                dSet s.gpu_slots_by_round new_round st.alloc.gpu_slots }
          else s
        else
          { st with
            allocations_by_round := dSet st.allocations_by_round 0
              (List.replicate total_gpus.toNat 0) }
      else st
    { st2 with
      alloc := { allocations := List.replicate total_gpus.toNat 0,
                 gpu_slots := [] },
      current_round := new_round,
      keep_current :=
        match sampled_rounds with
        | none => true
        | some s => s.contains new_round }
  | _ => st

/-- `_parse_allocations_for_rounds`. -/
def _parse_allocations_for_rounds (log : List Event) (total_gpus : Int)
    (job_gpu_request : List (Int × ℚ)) (sampled_rounds : Option (List Int))
    (has_sharing : Bool) : Pass2State :=
  log.foldl (pass2Step total_gpus job_gpu_request sampled_rounds has_sharing)
    { allocations_by_round := [], gpu_slots_by_round := [],
      alloc := { allocations := List.replicate total_gpus.toNat 0,
                 gpu_slots := [] },
      current_round := -1, keep_current := sampled_rounds.isNone }

/-- One step of the completion-merge loop (fold over `all_rounds_sorted`
with the `si` cursor modelled as the unconsumed suffix of
`sampled_sorted`). -/
def mergeStep (newly : List (Int × List Int))
    (st : List (Int × List Int) × List Int × List Int) (r : Int) :
    List (Int × List Int) × List Int × List Int :=
  let merged := st.1
  let pending :=
    match dGet newly r with
    | some ids => if ids.isEmpty then st.2.1 else sUnion st.2.1 ids
    | none => st.2.1
  match st.2.2 with
  | s :: rest =>
    if r == s then
      if pending.isEmpty then (merged, pending, rest)
      else (dSet merged r pending, [], rest)
    else (merged, pending, s :: rest)
  | [] => (merged, pending, [])

/-- The downsampling block of `preprocess_simulation` (lines choosing
`sampled_indices`, filtering the telemetry, and folding completions of
skipped rounds into the next sampled round).  Returns the (possibly
filtered) telemetry, the (possibly merged) completions-by-round, and the
sampled round set (`none` when no downsampling happened).  The float stride
`len(telemetry_data) / max_rounds` is modelled as an exact rational. -/
def sampleTelemetry (telemetry_data : List Telem)
    (newly : List (Int × List Int)) (max_rounds : Nat) :
    List Telem × List (Int × List Int) × Option (List Int) :=
  if max_rounds < telemetry_data.length then
    let step : ℚ := (telemetry_data.length : ℚ) / (max_rounds : ℚ)
    let s0 := (List.range max_rounds).foldl
      (fun acc i => sInsert acc (LogText.ratTrunc ((i : ℚ) * step)).toNat)
      ([] : List Nat)
    let s1 := sInsert s0 0
    let sampled_indices := sInsert s1 (telemetry_data.length - 1)
    let sampled_telem :=
      ((telemetry_data.enum.filter
        (fun p => sampled_indices.contains p.1)).map (fun p => p.2))
    let sampled_rounds := sampled_telem.foldl
      (fun acc t => sInsert acc t.round) ([] : List Int)
    let all_rounds_sorted := telemetry_data.map (fun t => t.round)
    let sampled_sorted := isortBy (fun a b => decide (a ≤ b)) sampled_rounds
    let merged := (all_rounds_sorted.foldl (mergeStep newly)
      ([], [], sampled_sorted)).1
    (sampled_telem, merged, some sampled_rounds)
  else (telemetry_data, newly, none)

structure RoundRec where
  round : Int
  sim_time : ℚ
  utilization : ℚ
  jobs_running : Int
  jobs_queued : Int
  jobs_completed : Int
  avg_jct : ℚ
  completion_rate : ℚ
  gpu_used : List Int
  allocations : List Int
  deriving Repr, DecidableEq

/-- The incremental-arrival cursor: move every leading job of the
arrival-sorted list whose `arrival_round ≤ r` into the active set. -/
def addArrived (r : Int) : List Job → List Int → List Job × List Int
  | [], active => ([], active)
  | j :: rest, active =>
    if j.arrival_round ≤ r then addArrived r rest (sInsert active j.job_id)
    else (j :: rest, active)

/-- Sharing rows of one round: GPUs (in index order) whose 4-slot array
holds more than one distinct value. -/
def sharingRows (slot_data : List (Int × List Int)) :
    List (Int × List Int) :=
  (isortBy (fun a b => decide (a.1 ≤ b.1)) slot_data).filter
    (fun p =>
      match p.2 with
      | [] => false
      | x :: xs => xs.any (fun y => !(y == x)))

/-- The output-building loop of `preprocess_simulation` (one round record,
queue list and sharing list per telemetry entry), with the sorted-arrival
cursor and active set threaded through. -/
def buildLoop (gpu_types : List GpuType) (total_gpus : Int)
    (allocations_by_round : List (Int × List Int))
    (gpu_slots_by_round : List (Int × List (Int × List Int)))
    (newly : List (Int × List Int)) (avg_jct : List (Int × ℚ)) :
    List Telem → List Job → List Int →
    List RoundRec × List (List Int) × List (List (Int × List Int))
  | [], _, _ => ([], [], [])
  | t :: ts, jobs_by_arrival, active0 =>
    let r := t.round
    let gpu_used := gpu_types.map
      (fun gt => (dGet t.used_counts (gt.name ++ "_used")).getD 0)
    let allocs := (dGet allocations_by_round r).getD
      (List.replicate total_gpus.toNat 0)
    let running := allocs.filter (fun j => decide (0 < j))
    let cursor := addArrived r jobs_by_arrival active0
    let active2 :=
      match dGet newly r with
      | some ids => if ids.isEmpty then cursor.2 else sDiff cursor.2 ids
      | none => cursor.2
    let queued := active2.filter (fun jid => !(running.contains jid))
    let avg := (dGet avg_jct r).getD 0
    let rr : RoundRec :=
      { round := r,
        sim_time := t.sim_time.getD 0,
        utilization := t.utilization.getD 0,
        jobs_running := t.jobs_running.getD 0,
        jobs_queued := t.jobs_queued.getD (queued.length : Int),
        jobs_completed := t.jobs_completed_total.getD 0,
        avg_jct := avg,
        completion_rate := t.windowed_completion_rate.getD 0,
        gpu_used := gpu_used,
        allocations := allocs }
    let round_sharing := sharingRows ((dGet gpu_slots_by_round r).getD [])
    let rest := buildLoop gpu_types total_gpus allocations_by_round
      gpu_slots_by_round newly avg_jct ts cursor.1 active2
    (rr :: rest.1, queued :: rest.2.1, round_sharing :: rest.2.2)

/-- `sorted(jobs, key=lambda j: j['arrival_round'])`. -/
def jobsByArrival (jobs : List Job) : List Job :=
  isortBy (fun a b => decide (a.arrival_round ≤ b.arrival_round)) jobs

/-- The result handed to the file writer: the writer's inputs plus the
counts it derives (`num_jobs = len(jobs)`, `num_rounds = len(rounds)`,
`total_gpus = sum of per-type counts`). -/
structure PreResult where
  jobs : List Job
  job_types_list : List JobTypeRec
  gpu_types : List GpuType
  total_gpus : Int
  rounds : List RoundRec
  queues : List (List Int)
  sharing : List (List (Int × List Int))
  has_any_sharing : Bool
  deriving Repr, DecidableEq

/-- `preprocess_simulation` on the event view of the log, up to (but not
including) the final `write_viz_file` call. -/
def preprocess_simulation (log : List Event) (cluster_spec : String)
    (max_rounds : Nat) : Except String PreResult := do
  let gpu_types ← parse_cluster_spec cluster_spec
  let total_gpus := (gpu_types.map (fun g => g.count)).sum
  if 0 < max_rounds then
    let p1 := _parse_jobs_and_telemetry log
    let sampled := sampleTelemetry p1.telemetry_data
      p1.newly_completed_by_round max_rounds
    let p2 := _parse_allocations_for_rounds log total_gpus
      p1.job_gpu_request sampled.2.2 p1.has_sharing
    let built := buildLoop gpu_types total_gpus p2.allocations_by_round
      p2.gpu_slots_by_round sampled.2.1 p1.avg_jct_by_round sampled.1
      (jobsByArrival p1.jobs) []
    return {
        jobs := p1.jobs, job_types_list := p1.job_types_list,
        gpu_types := gpu_types, total_gpus := total_gpus,
        rounds := built.1, queues := built.2.1, sharing := built.2.2,
        has_any_sharing := built.2.2.any (fun l => !l.isEmpty) }
  else
    let s := singleScan log total_gpus
    let built := buildLoop gpu_types total_gpus s.allocations_by_round
      s.gpu_slots_by_round s.newly_completed_by_round s.avg_jct_by_round
      s.telemetry_data (jobsByArrival s.jobs) []
    return {
        jobs := s.jobs, job_types_list := s.job_types_list,
        gpu_types := gpu_types, total_gpus := total_gpus,
        rounds := built.1, queues := built.2.1, sharing := built.2.2,
        has_any_sharing := built.2.2.any (fun l => !l.isEmpty) }

/-- Does this event name job `J` in an allocation (the job ids whose
worker lists `_process_allocation` is called with)? -/
def allocNamesB (J : Int) : Event → Bool
  | .allocSingle job_id _ => job_id == J
  | .allocBulk allocs => allocs.any (fun p => p.1 == J)
  | _ => false

/-- Does this event complete job `J`? -/
def compNamesB (J : Int) : Event → Bool
  | .completion c => c.job_id == J
  | _ => false

/-! Concrete inputs for the closed evaluations. -/

/-- A telemetry line of the two-round sample log (the shape of `SAMPLE_LOG`
in tests/test_preprocess_viz.py). -/
def sampleTelem (r : Int) (vu : Int) : Telem :=
  { round := r, sim_time := some (r * 360), utilization := some (1 / 4),
    jobs_running := some 2, jobs_queued := some 0,
    jobs_completed_total := some 0,
    used_counts := [("v100_used", vu), ("p100_used", 0), ("k80_used", 0)] }

/-- The event view of a log with 2 job arrivals (scale factors 1 and 2),
2 telemetry lines (rounds 0 and 1), one single-allocation line and one
bulk-allocation line, plus one noise line. -/
def sampleLog : List Event :=
  [ .other,
    .arrival { job_id := 0, job_type := "ResNet-18 (batch size 64)",
               scale_factor := 1 },
    .arrival { job_id := 1, job_type := "LM (batch size 5)",
               scale_factor := 2 },
    .telemetry (sampleTelem 0 0),
    .allocSingle 0 [8],
    .allocBulk [(1, [9, 10])],
    .telemetry (sampleTelem 1 3) ]

/-- A log of exactly 50 telemetry lines, rounds 0 through 49. -/
def log50 : List Event :=
  (List.range 50).map (fun i => .telemetry { round := (i : Int) })

/-- A mid-round allocation state where GPU slot 0 is already claimed by
job 3. -/
def stW7 : AllocState := { allocations := [3, 0], gpu_slots := [] }

/-- Later allocation events of the same round that also name worker 0. -/
def evsW7 : List Event :=
  [.allocSingle 9 [0], .allocBulk [(5, [0, 1])]]

/-- An allocation state for the out-of-range witness. -/
def stW10 : AllocState :=
  { allocations := [0, 0, 0, 0], gpu_slots := [(1, [7, 0, 0, 0])] }

/-- A log in which job 7 arrives before the first telemetry line and is
never allocated and never completed, followed by two rounds. -/
def logW8 : List Event :=
  [ .arrival { job_id := 7, job_type := "ResNet-18", scale_factor := 1 },
    .telemetry { round := 0 },
    .allocSingle 3 [0],
    .telemetry { round := 1 } ]

def emptyPre : PreResult :=
  { jobs := [], job_types_list := [], gpu_types := [], total_gpus := 0,
    rounds := [], queues := [], sharing := [], has_any_sharing := false }

def rrDefault : RoundRec :=
  { round := 0, sim_time := 0, utilization := 0, jobs_running := 0,
    jobs_queued := 0, jobs_completed := 0, avg_jct := 0,
    completion_rate := 0, gpu_used := [], allocations := [] }

/-- The pipeline result on `logW8` (the run succeeds; the fallback is never
taken). -/
def resW8 : PreResult :=
  match preprocess_simulation logW8 "4:4:4" 0 with
  | .ok r => r
  | .error _ => emptyPre

/-- The first round record of the pipeline result on `logW8`. -/
def rr0W8 : RoundRec :=
  { round := 0, sim_time := 0, utilization := 0, jobs_running := 0,
    jobs_queued := 1, jobs_completed := 0, avg_jct := 0,
    completion_rate := 0, gpu_used := [0, 0, 0],
    allocations := List.replicate 12 0 }

/-- Proof predicate: every entry of an allocation vector is the idle
marker 0 or the job id of some allocation event of `log`. -/
def AllocOK (log : List Event) (al : List Int) : Prop :=
  ∀ v ∈ al, v = 0 ∨ ∃ e ∈ log, allocNamesB v e = true

/-- Proof predicate: every id of a completed-id set is the job id of some
completion event of `log`. -/
def CompOK (log : List Event) (ids : List Int) : Prop :=
  ∀ v ∈ ids, ∃ e ∈ log, compNamesB v e = true

/-- Invariant of the single-pass loop state: the live allocation vector,
every stored per-round vector, the pending completed-id set and every
stored per-round completed-id set hold only values traceable to events of
`log`. -/
def ScanInv (log : List Event) (st : ScanState) : Prop :=
  AllocOK log st.alloc.allocations ∧
  (∀ r vec, dGet st.allocations_by_round r = some vec → AllocOK log vec) ∧
  CompOK log st.pending_completed_ids ∧
  (∀ r ids, dGet st.newly_completed_by_round r = some ids → CompOK log ids)

/-- The allocation part of `ScanInv`, for `_parse_allocations_for_rounds`. -/
def Pass2Inv (log : List Event) (st : Pass2State) : Prop :=
  AllocOK log st.alloc.allocations ∧
  ∀ r vec, dGet st.allocations_by_round r = some vec → AllocOK log vec

end Viz

namespace LogText

/-! Concrete malformed lines for the extractor-error evaluations. -/

/-- `ALLOCATION` line whose payload is the JSON object with the single,
non-numeric job-id key "x": the text
`ALLOCATION` followed by a mapping from "x" to `[0]`. -/
def lineBulkBad : Line :=
  { hasALLOCATION := true,
    allocMatch := some (some [("x", Json.arr [Json.num 0])]) }

/-- `[Micro-task scheduled]` line whose worker-ids group matched "1,,2"
(blank middle piece). -/
def lineSingleBad : Line :=
  { hasMicroTask := true, microJobId := some 5, microType := some "v100",
    microIds := some "1,,2" }

/-- `EVENT` job-arrival line whose `job_id` value is JSON `null`. -/
def lineArrivalBad : Line :=
  { hasEVENT := true, hasArrivalTag := true,
    eventMatch := some (some
      [("event", Json.str "job_arrival"), ("job_id", Json.null),
       ("job_type", Json.str "ResNet-18"), ("scale_factor", Json.num 1)]) }

/-- A well-formed job-arrival line (the shape tested in
tests/test_log_parser.py), for the witness. -/
def lineArrivalGood : Line :=
  { hasEVENT := true, hasArrivalTag := true,
    eventMatch := some (some
      [("event", Json.str "job_arrival"), ("job_id", Json.str "23"),
       ("job_type", Json.str "ResNet-50 (batch size 64)"),
       ("scale_factor", Json.num 4)]) }

/-- A well-formed completion line, for the witness. -/
def lineCompleteGood : Line :=
  { hasEVENT := true, hasCompleteTag := true,
    eventMatch := some (some
      [("event", Json.str "job_complete"), ("job_id", Json.num 23),
       ("duration", Json.num 1000)]) }

/-- A well-formed single-allocation line, for the witness. -/
def lineSingleGood : Line :=
  { hasMicroTask := true, microJobId := some 23, microType := some "v100",
    microIds := some "72, 73" }

/-- A well-formed bulk-allocation line, for the witness. -/
def lineBulkGood : Line :=
  { hasALLOCATION := true,
    allocMatch := some (some
      [("7", Json.arr [Json.num 0, Json.num 1])]) }

/-- A telemetry line with an unparseable payload, for the witness. -/
def lineTelemUnparseable : Line :=
  { hasTELEMETRY := true, telemMatch := some none }

end LogText

namespace BinaryFormat

/-! Concrete codec inputs for the witnesses. -/

def hdrW2 : HeaderArgs :=
  { num_rounds := 100, num_jobs := 50, num_gpu_types := 3,
    total_gpus := 108, job_metadata_offset := 256, rounds_offset := 1024,
    queue_offset := 50000, index_offset := 60000,
    config_json_offset := 200 }

def jmW3 : JobMeta :=
  { job_id := 42, type_id := 5, scale_factor := 4, arrival_round := 100,
    completion_round := 0, duration := 0 }

def hdrW5 : HeaderArgs :=
  { num_rounds := 1000, num_jobs := 500, num_gpu_types := 3,
    total_gpus := 108, job_metadata_offset := 256, rounds_offset := 1024,
    queue_offset := 50000, index_offset := 60000,
    config_json_offset := 70000 }

/-- Job metadata with a job id beyond the 16-bit range and a type id beyond
the 8-bit range. -/
def jmW5 : JobMeta :=
  { job_id := 70000, type_id := 300, scale_factor := 8,
    arrival_round := 9999, completion_round := 500, duration := 12345 }

/-- Round data with 16-bit gpu_used values (above 255) and 32-bit
allocation values (above 65535). -/
def rdW5 : RoundData :=
  { round := 100, sim_time := 0, utilization := 0, jobs_running := 45,
    jobs_queued := 10, jobs_completed := 500, avg_jct := 0,
    completion_rate := 0, gpu_used := [300, 400, 500],
    allocations := [70000, 80000, 0, 0] }

def qW5 : List Nat := [0, 70000, 100000]

def qiW5 : List Nat := [0, 100, 250, 500]

def shW5 : List (Nat × List Nat) :=
  [(100, [42, 42, 0, 0]), (200, [10, 20, 10, 0])]

def rdW6 : RoundData :=
  { round := 0, sim_time := 0, utilization := 0, jobs_running := 1,
    jobs_queued := 0, jobs_completed := 0, avg_jct := 0,
    completion_rate := 0, gpu_used := [2], allocations := [1, 0, 0, 0] }

end BinaryFormat

/-! # Lemmas and theorems -/

namespace BinaryFormat

theorem leBytes_length (k n : Nat) : (leBytes k n).length = k := by
  induction k generalizing n with
  | zero => rfl
  | succ k ih => simp [leBytes, ih]

theorem leVal_leBytes (k n : Nat) (h : n < 256 ^ k) :
    leVal (leBytes k n) = n := by
  induction k generalizing n with
  | zero =>
    simp only [pow_zero, Nat.lt_one_iff] at h
    simp [leBytes, leVal, h]
  | succ k ih =>
    have hd : n / 256 < 256 ^ k := by
      rw [Nat.div_lt_iff_lt_mul (by norm_num : 0 < 256)]
      calc n < 256 ^ (k + 1) := h
        _ = 256 ^ k * 256 := by rw [pow_succ]
    simp only [leBytes, leVal, ih _ hd]
    omega

theorem packU_inv {k n : Nat} {bs : List Nat} (h : packU k n = some bs) :
    n < 256 ^ k ∧ bs = leBytes k n := by
  unfold packU at h
  split at h
  · exact ⟨by assumption, (Option.some.inj h).symm⟩
  · cases h

theorem packSeq_nil_inv {bs : List Nat} (h : packSeq [] = some bs) :
    bs = [] := by
  simpa [packSeq] using h.symm

theorem packSeq_cons_inv {k n : Nat} {fs : List (Nat × Nat)} {bs : List Nat}
    (h : packSeq ((k, n) :: fs) = some bs) :
    ∃ r, packSeq fs = some r ∧ bs = leBytes k n ++ r ∧ n < 256 ^ k := by
  cases hb : packU k n with
  | none => rw [packSeq, hb] at h; simp at h
  | some b =>
    cases hr : packSeq fs with
    | none => rw [packSeq, hb, hr] at h; simp at h
    | some r =>
      rw [packSeq, hb, hr] at h
      obtain ⟨hbound, rfl⟩ := packU_inv hb
      have h2 : leBytes k n ++ r = bs := by simpa using h
      exact ⟨r, rfl, h2.symm, hbound⟩

theorem packSeq_cons_eq (k n : Nat) (fs : List (Nat × Nat))
    (b r : List Nat) (hb : packU k n = some b)
    (hr : packSeq fs = some r) :
    packSeq ((k, n) :: fs) = some (b ++ r) := by
  simp only [packSeq]
  rw [hb, hr]
  rfl

theorem packSeq_length {fs : List (Nat × Nat)} {bs : List Nat}
    (h : packSeq fs = some bs) :
    bs.length = (fs.map (fun p => p.1)).sum := by
  induction fs generalizing bs with
  | nil => simp [packSeq_nil_inv h]
  | cons f fs ih =>
    obtain ⟨r, hr, rfl, _⟩ := packSeq_cons_inv (k := f.1) (n := f.2)
      (by simpa using h)
    simp [leBytes_length, ih hr]

theorem readU_here {k n : Nat} (rest : List Nat) (h : n < 256 ^ k) :
    readU k (leBytes k n ++ rest) 0 = n := by
  unfold readU
  rw [List.drop_zero, List.take_left' (leBytes_length k n), leVal_leBytes k n h]

theorem readU_strip {k2 : Nat} (b rest : List Nat) (off : Nat) :
    readU k2 (b ++ rest) (b.length + off) = readU k2 rest off := by
  unfold readU
  have hd : (b ++ rest).drop (b.length + off) = rest.drop off := by
    rw [← List.drop_drop, List.drop_left]
  rw [hd]

/-- Reading field `i` of a packed field sequence (with arbitrary trailing
bytes) at the offset given by the preceding widths returns that field. -/
theorem packSeq_readU {fs : List (Nat × Nat)} {body : List Nat}
    (h : packSeq fs = some body) (rest : List Nat) (i : Nat)
    (hi : i < fs.length) :
    readU (fs.get ⟨i, hi⟩).1 (body ++ rest)
      (((fs.take i).map (fun p => p.1)).sum) = (fs.get ⟨i, hi⟩).2 := by
  induction fs generalizing body i with
  | nil => cases hi
  | cons f fs ih =>
    obtain ⟨r, hr, rfl, hbound⟩ := packSeq_cons_inv (k := f.1) (n := f.2)
      (by simpa using h)
    cases i with
    | zero =>
      simpa using readU_here (r ++ rest) hbound
    | succ i =>
      have hi2 : i < fs.length := Nat.lt_of_succ_lt_succ hi
      have e := ih hr i hi2
      simp only [List.get_cons_succ, List.take_succ_cons, List.map_cons,
        List.sum_cons, List.append_assoc]
      rw [show f.1 + ((fs.take i).map (fun p => p.1)).sum =
            (leBytes f.1 f.2).length + ((fs.take i).map (fun p => p.1)).sum
          from by rw [leBytes_length]]
      rw [readU_strip]
      exact e

theorem readU_skip {k2 off : Nat} (b rest : List Nat) (h : b.length ≤ off) :
    readU k2 (b ++ rest) off = readU k2 rest (off - b.length) := by
  have : off = b.length + (off - b.length) := by omega
  rw [this, readU_strip, Nat.add_sub_cancel_left]

theorem readVec_strip {k n : Nat} (b rest : List Nat) (off : Nat) :
    readVec k n (b ++ rest) (b.length + off) = readVec k n rest off := by
  induction n generalizing off with
  | zero => rfl
  | succ n ih =>
    simp only [readVec, readU_strip, Nat.add_assoc, ih]

theorem readVec_skip {k n off : Nat} (b rest : List Nat)
    (h : b.length ≤ off) :
    readVec k n (b ++ rest) off = readVec k n rest (off - b.length) := by
  have : off = b.length + (off - b.length) := by omega
  rw [this, readVec_strip, Nat.add_sub_cancel_left]

/-- Reading back a packed homogeneous vector. -/
theorem packSeq_readVec {k : Nat} {vals : List Nat} {body : List Nat}
    (h : packSeq (vals.map (fun v => (k, v))) = some body)
    (rest : List Nat) :
    readVec k vals.length (body ++ rest) 0 = vals := by
  induction vals generalizing body with
  | nil => simp [packSeq_nil_inv h, readVec]
  | cons v vs ih =>
    obtain ⟨r, hr, rfl, hbound⟩ := packSeq_cons_inv (k := k) (n := v)
      (by simpa using h)
    simp only [List.length_cons, readVec, List.append_assoc,
      List.cons.injEq]
    constructor
    · exact readU_here _ hbound
    · rw [show (0 : Nat) + k = (leBytes k v).length + 0 from by
          rw [leBytes_length]; omega]
      rw [readVec_strip]
      exact ih hr

theorem packVec_inv {k n : Nat} {vals bs : List Nat}
    (h : packVec k n vals = some bs) :
    vals.length = n ∧ packSeq (vals.map (fun v => (k, v))) = some bs := by
  unfold packVec at h
  split at h
  · exact ⟨by assumption, h⟩
  · cases h

theorem map_widths_sum (k : Nat) (vals : List Nat) :
    ((vals.map (fun v => (k, v))).map (fun p => p.1)).sum =
      k * vals.length := by
  induction vals with
  | nil => simp
  | cons v vs ih => simp [ih]; ring

/-- Round-trip for the header codec: unpacking a packed header returns the
same nine fields together with the magic and the declared version. -/
theorem unpack_pack_header {h : HeaderArgs} {bs : List Nat}
    (hp : pack_header h = some bs) :
    unpack_header bs = .ok
      { magic := MAGIC, version := VERSION,
        num_rounds := h.num_rounds, num_jobs := h.num_jobs,
        num_gpu_types := h.num_gpu_types, total_gpus := h.total_gpus,
        job_metadata_offset := h.job_metadata_offset,
        rounds_offset := h.rounds_offset, queue_offset := h.queue_offset,
        index_offset := h.index_offset,
        config_json_offset := h.config_json_offset } := by
  unfold pack_header at hp
  cases hb : packSeq (headerFields h) with
  | none => rw [hb] at hp; simp at hp
  | some body =>
    rw [hb] at hp
    have hbs : bs = MAGIC ++ body ++
        List.replicate (HEADER_SIZE - (MAGIC ++ body).length) 0 := by
      simpa using hp.symm
    have hm : packU 8 (leVal MAGIC) = some MAGIC := by decide
    have hfull : packSeq ((8, leVal MAGIC) :: headerFields h) =
        some (MAGIC ++ body) := packSeq_cons_eq _ _ _ _ _ hm hb
    have hlen : body.length = 56 := by
      simpa [headerFields] using packSeq_length hb
    have hlenMB : (MAGIC ++ body).length = 64 := by
      simp [hlen, MAGIC]
    rw [hlenMB] at hbs
    subst hbs
    set pad : List Nat := List.replicate (HEADER_SIZE - 64) 0 with hpad
    have e1 : readU 4 (MAGIC ++ body ++ pad) 8 = VERSION := by
      simpa [headerFields] using packSeq_readU hfull pad 1
        (by simp [headerFields])
    have e2 : readU 4 (MAGIC ++ body ++ pad) 12 = h.num_rounds := by
      simpa [headerFields] using packSeq_readU hfull pad 2
        (by simp [headerFields])
    have e3 : readU 4 (MAGIC ++ body ++ pad) 16 = h.num_jobs := by
      simpa [headerFields] using packSeq_readU hfull pad 3
        (by simp [headerFields])
    have e4 : readU 1 (MAGIC ++ body ++ pad) 20 = h.num_gpu_types := by
      simpa [headerFields] using packSeq_readU hfull pad 4
        (by simp [headerFields])
    have e5 : readU 2 (MAGIC ++ body ++ pad) 21 = h.total_gpus := by
      simpa [headerFields] using packSeq_readU hfull pad 5
        (by simp [headerFields])
    have e6 : readU 8 (MAGIC ++ body ++ pad) 24 = h.job_metadata_offset := by
      simpa [headerFields] using packSeq_readU hfull pad 7
        (by simp [headerFields])
    have e7 : readU 8 (MAGIC ++ body ++ pad) 32 = h.rounds_offset := by
      simpa [headerFields] using packSeq_readU hfull pad 8
        (by simp [headerFields])
    have e8 : readU 8 (MAGIC ++ body ++ pad) 40 = h.queue_offset := by
      simpa [headerFields] using packSeq_readU hfull pad 9
        (by simp [headerFields])
    have e9 : readU 8 (MAGIC ++ body ++ pad) 48 = h.index_offset := by
      simpa [headerFields] using packSeq_readU hfull pad 10
        (by simp [headerFields])
    have e10 : readU 8 (MAGIC ++ body ++ pad) 56 = h.config_json_offset := by
      simpa [headerFields] using packSeq_readU hfull pad 11
        (by simp [headerFields])
    have htake : (MAGIC ++ body ++ pad).take 8 = MAGIC := by
      rw [List.append_assoc]
      exact List.take_left' rfl
    have hml : MAGIC.length = 8 := rfl
    have hlenAll : (MAGIC ++ body ++ pad).length = 256 := by
      rw [List.length_append, List.length_append, hml, hlen, hpad,
        List.length_replicate]
      norm_num [HEADER_SIZE]
    have h256 : ¬ ((256 : Nat) < HEADER_SIZE) := by norm_num [HEADER_SIZE]
    have hmagic : ¬ (MAGIC ≠ MAGIC) := by simp
    unfold unpack_header
    rw [hlenAll, htake, if_neg h256, if_neg hmagic]
    simp only [Except.ok.injEq, Header.mk.injEq]
    exact ⟨trivial, e1, e2, e3, e4, e5, e6, e7, e8, e9, e10⟩

theorem le_align_to_8 (n : Nat) : n ≤ align_to_8 n := by
  unfold align_to_8
  omega

theorem align_to_8_mod (n : Nat) : align_to_8 n % 8 = 0 := by
  unfold align_to_8
  omega

/-- Round-trip for the job-metadata codec, together with the 24-byte record
size. -/
theorem unpack_pack_job_metadata {j : JobMeta} {bs : List Nat}
    (hp : pack_job_metadata j = some bs) :
    unpack_job_metadata bs = j ∧ bs.length = 24 := by
  unfold pack_job_metadata at hp
  have e0 : readU 4 bs 0 = j.job_id := by
    simpa [jobMetaFields] using packSeq_readU hp [] 0 (by simp [jobMetaFields])
  have e1 : readU 2 bs 4 = j.type_id := by
    simpa [jobMetaFields] using packSeq_readU hp [] 1 (by simp [jobMetaFields])
  have e2 : readU 1 bs 6 = j.scale_factor := by
    simpa [jobMetaFields] using packSeq_readU hp [] 2 (by simp [jobMetaFields])
  have e3 : readU 4 bs 8 = j.arrival_round := by
    simpa [jobMetaFields] using packSeq_readU hp [] 4 (by simp [jobMetaFields])
  have e4 : readU 4 bs 12 = j.completion_round := by
    simpa [jobMetaFields] using packSeq_readU hp [] 5 (by simp [jobMetaFields])
  have e5 : readU 4 bs 16 = j.duration := by
    simpa [jobMetaFields] using packSeq_readU hp [] 6 (by simp [jobMetaFields])
  constructor
  · unfold unpack_job_metadata
    rw [e0, e1, e2, e3, e4, e5]
  · simpa [jobMetaFields] using packSeq_length hp

/-- Round-trip for the round-record codec, together with the exact packed
size `compute_round_size`. -/
theorem unpack_pack_round {rd : RoundData} {G N : Nat} {bs : List Nat}
    (hp : pack_round rd G N = some bs) :
    unpack_round bs G N = rd ∧ bs.length = compute_round_size G N := by
  unfold pack_round at hp
  cases hbase : packSeq (roundBaseFields rd) with
  | none => rw [hbase] at hp; simp at hp
  | some base =>
    cases hgpu : packVec 2 G rd.gpu_used with
    | none => rw [hbase, hgpu] at hp; simp at hp
    | some gpu =>
      cases halloc : packVec 4 N rd.allocations with
      | none => rw [hbase, hgpu, halloc] at hp; simp at hp
      | some alloc =>
        rw [hbase, hgpu, halloc] at hp
        obtain ⟨hGlen, hgpu2⟩ := packVec_inv hgpu
        obtain ⟨hNlen, halloc2⟩ := packVec_inv halloc
        have hbs : bs = base ++ gpu ++ alloc ++
            List.replicate
              (compute_round_size G N - (base ++ gpu ++ alloc).length) 0 := by
          simpa using hp.symm
        have hbaseLen : base.length = 28 := by
          simpa [roundBaseFields] using packSeq_length hbase
        have hgpuLen : gpu.length = 2 * G := by
          rw [packSeq_length hgpu2, map_widths_sum, hGlen]
        have hallocLen : alloc.length = 4 * N := by
          rw [packSeq_length halloc2, map_widths_sum, hNlen]
        have hbs2 : bs = base ++ (gpu ++ (alloc ++
            List.replicate
              (compute_round_size G N - (base ++ gpu ++ alloc).length) 0)) := by
          simpa [List.append_assoc] using hbs
        set pad : List Nat := List.replicate
          (compute_round_size G N - (base ++ gpu ++ alloc).length) 0 with hpad
        have eb : ∀ i : Nat, ∀ hi : i < (roundBaseFields rd).length,
            readU ((roundBaseFields rd).get ⟨i, hi⟩).1
              (base ++ (gpu ++ (alloc ++ pad)))
              ((((roundBaseFields rd).take i).map (fun p => p.1)).sum) =
              ((roundBaseFields rd).get ⟨i, hi⟩).2 :=
          fun i hi => packSeq_readU hbase (gpu ++ (alloc ++ pad)) i hi
        have e0 : readU 4 bs 0 = rd.round := by
          rw [hbs2]
          simpa [roundBaseFields] using eb 0 (by simp [roundBaseFields])
        have e1 : readU 4 bs 4 = rd.sim_time := by
          rw [hbs2]
          simpa [roundBaseFields] using eb 1 (by simp [roundBaseFields])
        have e2 : readU 4 bs 8 = rd.utilization := by
          rw [hbs2]
          simpa [roundBaseFields] using eb 2 (by simp [roundBaseFields])
        have e3 : readU 2 bs 12 = rd.jobs_running := by
          rw [hbs2]
          simpa [roundBaseFields] using eb 3 (by simp [roundBaseFields])
        have e4 : readU 2 bs 14 = rd.jobs_queued := by
          rw [hbs2]
          simpa [roundBaseFields] using eb 4 (by simp [roundBaseFields])
        have e5 : readU 4 bs 16 = rd.jobs_completed := by
          rw [hbs2]
          simpa [roundBaseFields] using eb 5 (by simp [roundBaseFields])
        have e6 : readU 4 bs 20 = rd.avg_jct := by
          rw [hbs2]
          simpa [roundBaseFields] using eb 6 (by simp [roundBaseFields])
        have e7 : readU 4 bs 24 = rd.completion_rate := by
          rw [hbs2]
          simpa [roundBaseFields] using eb 7 (by simp [roundBaseFields])
        have eg : readVec 2 G bs ROUND_BASE_SIZE = rd.gpu_used := by
          rw [hbs2, readVec_skip base (gpu ++ (alloc ++ pad))
            (by rw [hbaseLen]; norm_num [ROUND_BASE_SIZE])]
          rw [hbaseLen]
          norm_num [ROUND_BASE_SIZE]
          have := packSeq_readVec hgpu2 (alloc ++ pad)
          rw [hGlen] at this
          exact this
        have ea : readVec 4 N bs (ROUND_BASE_SIZE + G * 2) =
            rd.allocations := by
          rw [hbs2, readVec_skip base (gpu ++ (alloc ++ pad))
            (by rw [hbaseLen]; norm_num [ROUND_BASE_SIZE])]
          rw [hbaseLen]
          have hoff : ROUND_BASE_SIZE + G * 2 - 28 = G * 2 := by
            norm_num [ROUND_BASE_SIZE]
          rw [hoff]
          rw [readVec_skip gpu (alloc ++ pad) (by rw [hgpuLen]; omega)]
          rw [hgpuLen]
          have hoff2 : G * 2 - 2 * G = 0 := by omega
          rw [hoff2]
          have := packSeq_readVec halloc2 pad
          rw [hNlen] at this
          exact this
        constructor
        · unfold unpack_round
          rw [e0, e1, e2, e3, e4, e5, e6, e7, eg, ea]
        · have hdataLen : (base ++ gpu ++ alloc).length = 28 + 2 * G + 4 * N := by
            simp only [List.length_append, hbaseLen, hgpuLen, hallocLen]
          have hle : (base ++ gpu ++ alloc).length ≤
              compute_round_size G N := by
            rw [hdataLen]
            unfold compute_round_size ROUND_BASE_SIZE
            have := le_align_to_8 (28 + G * 2 + N * 4)
            omega
          rw [hbs]
          rw [List.length_append, List.length_replicate]
          omega

/-- Round-trip for the queue-entry codec. -/
theorem unpack_pack_queue_entry {q : List Nat} {bs : List Nat}
    (hp : pack_queue_entry q = some bs) :
    unpack_queue_entry bs = q := by
  cases q with
  | nil =>
    have hbs : bs = [0, 0] := by
      simpa [pack_queue_entry, packU, leBytes] using hp.symm
    subst hbs
    rfl
  | cons a l =>
    have hq : (a :: l).length ≠ 0 := by simp
    unfold pack_queue_entry at hp
    cases hh : packU 2 (a :: l).length with
    | none => rw [hh] at hp; simp at hp
    | some header =>
      rw [hh] at hp
      obtain ⟨hbound, rfl⟩ := packU_inv hh
      simp only [Option.bind_eq_bind, Option.some_bind] at hp
      rw [if_neg hq] at hp
      cases hv : packVec 4 (a :: l).length (a :: l) with
      | none => rw [hv] at hp; simp at hp
      | some ids =>
        rw [hv] at hp
        obtain ⟨_, hids⟩ := packVec_inv hv
        have hbs : bs = leBytes 2 (a :: l).length ++ ids := by
          simpa using hp.symm
        subst hbs
        unfold unpack_queue_entry
        have hlen : readU 2 (leBytes 2 (a :: l).length ++ ids) 0 =
            (a :: l).length := readU_here ids hbound
        rw [hlen, if_neg hq]
        have h2 : (leBytes 2 (a :: l).length).length = 2 :=
          leBytes_length 2 _
        rw [readVec_skip _ _ (by rw [h2])]
        rw [h2]
        have hz : (2 : Nat) - 2 = 0 := rfl
        rw [hz]
        have := packSeq_readVec hids []
        simpa using this

theorem packSeq_append_inv {fs1 fs2 : List (Nat × Nat)} {bs : List Nat}
    (h : packSeq (fs1 ++ fs2) = some bs) :
    ∃ b1 b2, packSeq fs1 = some b1 ∧ packSeq fs2 = some b2 ∧
      bs = b1 ++ b2 := by
  induction fs1 generalizing bs with
  | nil => exact ⟨[], bs, rfl, by simpa using h, by simp⟩
  | cons f fs ih =>
    obtain ⟨r, hr, rfl, hbound⟩ := packSeq_cons_inv (k := f.1) (n := f.2)
      (by simpa using h)
    obtain ⟨b1, b2, h1, h2, rfl⟩ := ih hr
    refine ⟨leBytes f.1 f.2 ++ b1, b2, ?_, h2, by simp⟩
    exact packSeq_cons_eq _ _ _ _ _ (by simp [packU, hbound]) h1

/-- Reading back the `i`-th packed sharing pair at its 18-byte stride. -/
theorem sharing_reads {entries : List (Nat × List Nat)} {body : List Nat}
    (hb : packSeq (entries.flatMap
      (fun e => (2, e.1) :: e.2.map (fun s => (4, s)))) = some body)
    (hslots : ∀ e ∈ entries, e.2.length = 4) :
    ∀ (rest : List Nat) (i : Nat) (hi : i < entries.length),
      (readU 2 (body ++ rest) (i * 18),
        readVec 4 4 (body ++ rest) (i * 18 + 2)) = entries.get ⟨i, hi⟩ := by
  induction entries generalizing body with
  | nil => intro rest i hi; cases hi
  | cons e es ih =>
    intro rest i hi
    rw [List.flatMap_cons] at hb
    obtain ⟨r, hr, rfl, hbound⟩ := packSeq_cons_inv (k := 2) (n := e.1)
      (by simpa using hb)
    obtain ⟨bslots, rest2, hbslots, hrest2, rfl⟩ := packSeq_append_inv hr
    have hslotLen : e.2.length = 4 := hslots e (by simp)
    have hbslotsLen : bslots.length = 16 := by
      rw [packSeq_length hbslots, map_widths_sum, hslotLen]
    cases i with
    | zero =>
      have hget : (e :: es).get ⟨0, hi⟩ = e := rfl
      rw [hget]
      simp only [Nat.zero_mul, Nat.zero_add]
      have h2 : (leBytes 2 e.1).length = 2 := leBytes_length 2 _
      have hfst : readU 2 (leBytes 2 e.1 ++ (bslots ++ rest2) ++ rest) 0 =
          e.1 := by
        rw [List.append_assoc]
        exact readU_here _ hbound
      have hsnd : readVec 4 4 (leBytes 2 e.1 ++ (bslots ++ rest2) ++ rest)
          2 = e.2 := by
        rw [List.append_assoc]
        rw [readVec_skip _ _ (by rw [h2]), h2]
        have hz : (2 : Nat) - 2 = 0 := rfl
        rw [hz, List.append_assoc]
        have := packSeq_readVec hbslots (rest2 ++ rest)
        rw [hslotLen] at this
        exact this
      exact Prod.ext hfst hsnd
    | succ i =>
      have hi2 : i < es.length := Nat.lt_of_succ_lt_succ hi
      have hpre : ((leBytes 2 e.1) ++ bslots).length = 18 := by
        simp [leBytes_length, hbslotsLen]
      have assocEq : leBytes 2 e.1 ++ (bslots ++ rest2) ++ rest =
          (leBytes 2 e.1 ++ bslots) ++ (rest2 ++ rest) := by
        simp [List.append_assoc]
      have hoff1 : (i + 1) * 18 = ((leBytes 2 e.1) ++ bslots).length +
          i * 18 := by rw [hpre]; ring
      have hoff2 : (i + 1) * 18 + 2 = ((leBytes 2 e.1) ++ bslots).length +
          (i * 18 + 2) := by rw [hpre]; ring
      rw [assocEq, hoff1]
      rw [readU_strip]
      rw [show ((leBytes 2 e.1) ++ bslots).length + i * 18 + 2 =
          ((leBytes 2 e.1) ++ bslots).length + (i * 18 + 2) from by omega]
      rw [readVec_strip]
      have := ih hrest2 (fun x hx => hslots x (by simp [hx])) rest i hi2
      simpa using this

/-- Round-trip for the (spec-modelled) sharing-entry codec; the occupancy
arrays are 4-slot by construction. -/
theorem unpack_pack_sharing_round {entries : List (Nat × List Nat)}
    {bs : List Nat} (hp : pack_sharing_round entries = some bs)
    (hslots : ∀ e ∈ entries, e.2.length = 4) :
    unpack_sharing_round bs = entries := by
  unfold pack_sharing_round at hp
  cases hh : packU 2 entries.length with
  | none => rw [hh] at hp; simp at hp
  | some header =>
    cases hbody : packSeq (entries.flatMap
        (fun e => (2, e.1) :: e.2.map (fun s => (4, s)))) with
    | none => rw [hh, hbody] at hp; simp at hp
    | some body =>
      rw [hh, hbody] at hp
      obtain ⟨hbound, rfl⟩ := packU_inv hh
      have hbs : bs = leBytes 2 entries.length ++ body := by
        simpa using hp.symm
      subst hbs
      unfold unpack_sharing_round
      have hcount : readU 2 (leBytes 2 entries.length ++ body) 0 =
          entries.length := readU_here body hbound
      rw [hcount]
      apply List.ext_get
      · simp
      · intro i h1 h2
        have hi : i < entries.length := by simpa using h2
        have h2le : (leBytes 2 entries.length).length = 2 :=
          leBytes_length 2 _
        have hread := sharing_reads hbody hslots [] i hi
        rw [List.append_nil] at hread
        simp only [List.get_eq_getElem, List.getElem_map,
          List.getElem_range]
        rw [show (2 : Nat) + i * 18 = (leBytes 2 entries.length).length +
            i * 18 from by rw [h2le]]
        rw [readU_strip]
        rw [show (leBytes 2 entries.length).length + i * 18 + 2 =
            (leBytes 2 entries.length).length + (i * 18 + 2) from by omega]
        rw [readVec_strip]
        exact hread

/-- Round-trip for the queue-index codec. -/
theorem unpack_pack_queue_index {offsets : List Nat} {bs : List Nat}
    (hp : pack_queue_index offsets = some bs) :
    unpack_queue_index bs offsets.length = offsets := by
  unfold pack_queue_index at hp
  obtain ⟨_, hseq⟩ := packVec_inv hp
  unfold unpack_queue_index
  have := packSeq_readVec hseq []
  simpa using this

/-! ## Claim theorems for the codec -/

/-- C2: evaluation of the src header codec at the divergence.  The header
written by the src `pack_header` is the version-1 `<8sIIIBHxQQQQQ` layout:
its packed region is the first `HEADER_PACKED_SIZE = 64` bytes (magic,
version, three counts and exactly five offsets) and all 192 remaining bytes
of the 256-byte header are zero padding — the written header holds no
sharing-data or sharing-index offset anywhere.  (The claim's two sharing
offsets exist only in the version-2 codec, which src lacks; src tests call
`pack_header` with `sharing_data_offset=`/`sharing_index_offset=` and fail.) -/
theorem claim_C2_header_has_no_sharing_offsets :
    ∀ (h : HeaderArgs) (bs : List Nat), pack_header h = some bs →
      bs.length = HEADER_SIZE ∧
      bs.drop HEADER_PACKED_SIZE =
        List.replicate (HEADER_SIZE - HEADER_PACKED_SIZE) 0 := by
  intro h bs hp
  unfold pack_header at hp
  cases hb : packSeq (headerFields h) with
  | none => rw [hb] at hp; simp at hp
  | some body =>
    rw [hb] at hp
    have hbs : bs = MAGIC ++ body ++
        List.replicate (HEADER_SIZE - (MAGIC ++ body).length) 0 := by
      simpa using hp.symm
    have hlen : body.length = 56 := by
      simpa [headerFields] using packSeq_length hb
    have hlenMB : (MAGIC ++ body).length = 64 := by
      simp [hlen, MAGIC]
    rw [hlenMB] at hbs
    subst hbs
    constructor
    · simp only [List.length_append, hlenMB, List.length_replicate]
      norm_num [HEADER_SIZE]
    · have h64 : (MAGIC ++ body).length = HEADER_PACKED_SIZE := by
        rw [hlenMB]; rfl
      have hdrop : (MAGIC ++ body ++
          List.replicate (HEADER_SIZE - 64) 0).drop HEADER_PACKED_SIZE =
          List.replicate (HEADER_SIZE - 64) 0 := by
        rw [← h64, List.drop_left]
      rw [hdrop]
      rfl

/-- Witness for C2 at a concrete header. -/
theorem claim_C2_header_has_no_sharing_offsets_witness :
    ((pack_header hdrW2).getD []).length = HEADER_SIZE ∧
    ((pack_header hdrW2).getD []).drop HEADER_PACKED_SIZE =
      List.replicate (HEADER_SIZE - HEADER_PACKED_SIZE) 0 :=
  claim_C2_header_has_no_sharing_offsets hdrW2 _ (by rfl)

/-- C3: the src codec declares `VERSION = 1`, yet `pack_job_metadata`
always produces 24-byte records carrying the completion-round and duration
fields — not the 16-byte records the claim assigns to format version 1
(and the src tests demand `VERSION == 2`). -/
theorem claim_C3_version_one_but_24_byte_records :
    VERSION = 1 ∧
    (∀ (j : JobMeta) (bs : List Nat), pack_job_metadata j = some bs →
      bs.length = 24) ∧ (24 : Nat) ≠ 16 :=
  ⟨rfl, fun _ _ hp => (unpack_pack_job_metadata hp).2, by decide⟩

/-- Witness for C3 at a concrete job record. -/
theorem claim_C3_version_one_but_24_byte_records_witness :
    VERSION = 1 ∧ ((pack_job_metadata jmW3).getD []).length = 24 :=
  ⟨claim_C3_version_one_but_24_byte_records.1,
    claim_C3_version_one_but_24_byte_records.2.1 jmW3 _ (by rfl)⟩

/-- C5: round-trip identities.  For every header with valid (in-range)
field values, unpacking the packed header returns the same fields, magic
and version included; likewise for job-metadata, round, queue-entry,
queue-index, and (spec-modelled) sharing-entry records. -/
theorem claim_C5_pack_unpack_roundtrip :
    (∀ (h : HeaderArgs) (bs : List Nat), pack_header h = some bs →
      unpack_header bs = .ok
        { magic := MAGIC, version := VERSION, num_rounds := h.num_rounds,
          num_jobs := h.num_jobs, num_gpu_types := h.num_gpu_types,
          total_gpus := h.total_gpus,
          job_metadata_offset := h.job_metadata_offset,
          rounds_offset := h.rounds_offset, queue_offset := h.queue_offset,
          index_offset := h.index_offset,
          config_json_offset := h.config_json_offset }) ∧
    (∀ (j : JobMeta) (bs : List Nat), pack_job_metadata j = some bs →
      unpack_job_metadata bs = j) ∧
    (∀ (rd : RoundData) (G N : Nat) (bs : List Nat),
      pack_round rd G N = some bs → unpack_round bs G N = rd) ∧
    (∀ (q bs : List Nat), pack_queue_entry q = some bs →
      unpack_queue_entry bs = q) ∧
    (∀ (offsets bs : List Nat), pack_queue_index offsets = some bs →
      unpack_queue_index bs offsets.length = offsets) ∧
    (∀ (entries : List (Nat × List Nat)) (bs : List Nat),
      (∀ e ∈ entries, e.2.length = 4) →
      pack_sharing_round entries = some bs →
      unpack_sharing_round bs = entries) :=
  ⟨fun _ _ hp => unpack_pack_header hp,
    fun _ _ hp => (unpack_pack_job_metadata hp).1,
    fun _ _ _ _ hp => (unpack_pack_round hp).1,
    fun _ _ hp => unpack_pack_queue_entry hp,
    fun _ _ hp => unpack_pack_queue_index hp,
    fun _ _ hs hp => unpack_pack_sharing_round hp hs⟩

/-- Witness for C5 at boundary-valued records (zero fields, a job id and
allocation slots above the 16-bit range, gpu_used counts above the 8-bit
range). -/
theorem claim_C5_pack_unpack_roundtrip_witness :
    unpack_header ((pack_header hdrW5).getD []) = .ok
      { magic := MAGIC, version := VERSION,
        num_rounds := hdrW5.num_rounds, num_jobs := hdrW5.num_jobs,
        num_gpu_types := hdrW5.num_gpu_types,
        total_gpus := hdrW5.total_gpus,
        job_metadata_offset := hdrW5.job_metadata_offset,
        rounds_offset := hdrW5.rounds_offset,
        queue_offset := hdrW5.queue_offset,
        index_offset := hdrW5.index_offset,
        config_json_offset := hdrW5.config_json_offset } ∧
    unpack_job_metadata ((pack_job_metadata jmW5).getD []) = jmW5 ∧
    unpack_round ((pack_round rdW5 3 4).getD []) 3 4 = rdW5 ∧
    unpack_queue_entry ((pack_queue_entry qW5).getD []) = qW5 ∧
    unpack_queue_index ((pack_queue_index qiW5).getD []) qiW5.length =
      qiW5 ∧
    unpack_sharing_round ((pack_sharing_round shW5).getD []) = shW5 :=
  ⟨claim_C5_pack_unpack_roundtrip.1 hdrW5 _ (by rfl),
    claim_C5_pack_unpack_roundtrip.2.1 jmW5 _ (by rfl),
    claim_C5_pack_unpack_roundtrip.2.2.1 rdW5 3 4 _ (by rfl),
    claim_C5_pack_unpack_roundtrip.2.2.2.1 qW5 _ (by rfl),
    claim_C5_pack_unpack_roundtrip.2.2.2.2.1 qiW5 _ (by rfl),
    claim_C5_pack_unpack_roundtrip.2.2.2.2.2 shW5 _ (by decide) (by rfl)⟩

/-- C6: `compute_round_size G N = align8(28 + 2G + 4N)`, divisible by 8,
with the four quoted concrete values, and `pack_round` produces exactly
that many bytes. -/
theorem claim_C6_round_size_formula :
    (∀ G N : Nat, compute_round_size G N =
        align_to_8 (28 + 2 * G + 4 * N) ∧
      compute_round_size G N % 8 = 0) ∧
    compute_round_size 3 108 = 472 ∧ compute_round_size 3 12 = 88 ∧
    compute_round_size 1 4 = 48 ∧ compute_round_size 5 500 = 2040 ∧
    (∀ (rd : RoundData) (G N : Nat) (bs : List Nat),
      pack_round rd G N = some bs →
      bs.length = compute_round_size G N) := by
  refine ⟨fun G N => ⟨?_, align_to_8_mod _⟩, by decide, by decide,
    by decide, by decide, fun rd G N bs hp => (unpack_pack_round hp).2⟩
  unfold compute_round_size ROUND_BASE_SIZE
  congr 1
  ring

/-- Witness for C6 at (G, N) = (1, 4). -/
theorem claim_C6_round_size_formula_witness :
    ((pack_round rdW6 1 4).getD []).length = compute_round_size 1 4 :=
  claim_C6_round_size_formula.2.2.2.2.2 rdW6 1 4 _ (by rfl)

end BinaryFormat


/-! ## Claim theorems for the aggregation pipeline -/

namespace Viz

theorem _process_allocation_out_of_range {worker_id job_id total_gpus : Int}
    {gpu_req : ℚ} {st : AllocState}
    (h : worker_id < 0 ∨ total_gpus ≤ worker_id) :
    _process_allocation worker_id job_id total_gpus gpu_req st = st := by
  unfold _process_allocation
  rcases h with h | h
  · simp [show ¬ (0 ≤ worker_id) from by omega]
  · simp [show ¬ (worker_id < total_gpus) from by omega]

/-- C10: an allocation event naming a worker index outside
`[0, total_gpus)` is silently dropped by `_process_allocation`: both the
per-round allocation vector and the quarter-slot occupancy map are left
completely unchanged (the guard returns before any write, so there is no
out-of-bounds access; the function is total, so no error is raised). -/
theorem claim_C10_out_of_range_worker_is_noop :
    ∀ (worker_id job_id total_gpus : Int) (gpu_req : ℚ) (st : AllocState),
      worker_id < 0 ∨ total_gpus ≤ worker_id →
      _process_allocation worker_id job_id total_gpus gpu_req st = st :=
  fun _ _ _ _ _ h => _process_allocation_out_of_range h

/-- Witness for C10 at worker index 12 on a 12-GPU cluster (and the state
as a whole, quarter-slot map included, is unchanged). -/
theorem claim_C10_out_of_range_worker_is_noop_witness :
    _process_allocation 12 7 12 1 stW10 = stW10 :=
  claim_C10_out_of_range_worker_is_noop 12 7 12 1 stW10
    (Or.inr (by decide))

theorem _process_allocation_keeps_nonzero {worker_id job_id total_gpus : Int}
    {gpu_req : ℚ} {st : AllocState} {i : Nat} {v : Int}
    (hv : st.allocations[i]? = some v) (hnz : v ≠ 0) :
    (_process_allocation worker_id job_id total_gpus gpu_req
      st).allocations[i]? = some v := by
  unfold _process_allocation
  by_cases hg : (0 ≤ worker_id ∧ worker_id < total_gpus)
  · have hgb : (!(decide (0 ≤ worker_id) && decide (worker_id < total_gpus)))
        = false := by simp [hg.1, hg.2]
    rw [hgb]
    simp only [Bool.false_eq_true, if_false]
    have halloc :
        (if st.allocations.getD worker_id.toNat 0 == 0 then
          st.allocations.set worker_id.toNat job_id
        else st.allocations)[i]? = some v := by
      by_cases hw : worker_id.toNat = i
      · subst hw
        have : st.allocations.getD worker_id.toNat 0 = v := by
          simp [List.getD, List.getD_eq_getElem?_getD, hv]
        rw [this]
        simp [hnz, hv]
      · by_cases hz : st.allocations.getD worker_id.toNat 0 == 0
        · rw [if_pos hz, List.getElem?_set_ne hw]
          exact hv
        · rw [if_neg hz]
          exact hv
    split
    · simpa using halloc
    · split <;> simpa using halloc
  · have hgb : (!(decide (0 ≤ worker_id) && decide (worker_id < total_gpus)))
        = true := by
      rcases not_and_or.mp hg with h | h <;> simp [h]
    rw [hgb]
    simpa using hv

theorem processWorkers_keeps_nonzero {job_id total_gpus : Int}
    {gpu_req : ℚ} {worker_ids : List Int} {st : AllocState} {i : Nat}
    {v : Int} (hv : st.allocations[i]? = some v) (hnz : v ≠ 0) :
    (processWorkers job_id total_gpus gpu_req worker_ids
      st).allocations[i]? = some v := by
  induction worker_ids generalizing st with
  | nil => exact hv
  | cons w ws ih =>
    exact ih (_process_allocation_keeps_nonzero hv hnz)

theorem bulkFold_keeps_nonzero {total_gpus : Int}
    {job_gpu_request : List (Int × ℚ)} {allocs : List (Int × List Int)}
    {st : AllocState} {i : Nat} {v : Int}
    (hv : st.allocations[i]? = some v) (hnz : v ≠ 0) :
    (allocs.foldl
      (fun s entry =>
        processWorkers entry.1 total_gpus
          ((dGet job_gpu_request entry.1).getD 1) entry.2 s)
      st).allocations[i]? = some v := by
  induction allocs generalizing st with
  | nil => exact hv
  | cons a as ih => exact ih (processWorkers_keeps_nonzero hv hnz)

theorem processAllocEvent_keeps_nonzero {total_gpus : Int}
    {job_gpu_request : List (Int × ℚ)} {e : Event} {st : AllocState}
    {i : Nat} {v : Int} (hv : st.allocations[i]? = some v) (hnz : v ≠ 0) :
    (processAllocEvent total_gpus job_gpu_request e
      st).allocations[i]? = some v := by
  cases e with
  | allocBulk allocs =>
    simpa only [processAllocEvent] using bulkFold_keeps_nonzero hv hnz
  | allocSingle job_id worker_ids =>
    exact processWorkers_keeps_nonzero hv hnz
  | arrival a => exact hv
  | completion c => exact hv
  | telemetry t => exact hv
  | other => exact hv

/-- C7: first-claim-wins.  Once a GPU slot of the per-round allocation
vector holds a non-zero job id, no later allocation event processed in the
same round (single or bulk, any worker list) changes that slot's value. -/
theorem claim_C7_first_claim_wins :
    ∀ (evs : List Event) (total_gpus : Int)
      (job_gpu_request : List (Int × ℚ)) (st : AllocState) (i : Nat)
      (v : Int), st.allocations[i]? = some v → v ≠ 0 →
      ((evs.foldl
        (fun s e => processAllocEvent total_gpus job_gpu_request e s)
        st).allocations[i]? = some v) := by
  intro evs total_gpus job_gpu_request st i v hv hnz
  induction evs generalizing st with
  | nil => exact hv
  | cons e es ih =>
    exact ih _ (processAllocEvent_keeps_nonzero hv hnz)

/-- Witness for C7: slot 0 claimed by job 3 survives a later single and a
later bulk allocation both naming worker 0. -/
theorem claim_C7_first_claim_wins_witness :
    ((evsW7.foldl (fun s e => processAllocEvent 2 [] e s)
      stW7).allocations[0]? = some 3) :=
  claim_C7_first_claim_wins evsW7 2 [] stW7 0 3 (by rfl) (by decide)

end Viz

section RatKernelEval

attribute [local semireducible] Rat.mul Rat.inv Rat.add Rat.sub
  Rat.ofScientific

set_option maxRecDepth 10000 in
/-- C1: evaluating the aggregation pipeline on the two-arrival sample log
(2 job arrivals with scale factors 1 and 2, telemetry rounds 0 and 1, one
single-allocation line, one bulk-allocation line, one noise line) with
cluster spec "4:4:4": the result handed to the file writer has 2 jobs, 2
round records, and 12 total GPUs — the values the written header's
`num_jobs`, `num_rounds` and `total_gpus` fields are computed from.  (In
src as given, the final `write_viz_file(..., sharing=...)` call itself
raises `TypeError`, because the version-1 writer has no such parameter.) -/
theorem claim_C1_sample_log_header_counts :
    ((Viz.preprocess_simulation Viz.sampleLog "4:4:4" 0).toOption.map
      (fun r => (r.jobs.length, r.rounds.length, r.total_gpus))) =
    some (2, 2, 12) := by decide

set_option maxRecDepth 40000 in
/-- C4: evaluating the pipeline on a log of exactly 50 telemetry rounds
(rounds 0 through 49) with `max_rounds = 10`: the retained rounds are
`int(i * 5.0)` for `i < 10` plus the forced first and last indices, i.e.
rounds 0, 5, ..., 45 and 49 — 11 round records, not the at-most-10 the
claim (and the function's own docstring) promises. -/
theorem claim_C4_downsample_produces_eleven_rounds :
    ((Viz.preprocess_simulation Viz.log50 "4:4:4" 10).toOption.map
      (fun r => (r.rounds.map (fun rr => rr.round), r.rounds.length))) =
    some ([0, 5, 10, 15, 20, 25, 30, 35, 40, 45, 49], 11) := by decide

end RatKernelEval


/-! ## Claim theorems for the extractors -/

namespace LogText

theorem pyInt_ne_typeError {v : Json} (h : scalarOk v = true) :
    pyInt v ≠ .error .typeError := by
  cases v with
  | num q => simp [pyInt]
  | bool b => simp [pyInt]
  | str s => cases hp : pyParseIntStr s <;> simp [pyInt, hp]
  | null => simp [scalarOk] at h
  | arr l => simp [scalarOk] at h
  | obj o => simp [scalarOk] at h

theorem pyFloat_ne_typeError {v : Json} (h : scalarOk v = true) :
    pyFloat v ≠ .error .typeError := by
  cases v with
  | num q => simp [pyFloat]
  | bool b => simp [pyFloat]
  | str s => cases hp : pyParseFloatStr s <;> simp [pyFloat, hp]
  | null => simp [scalarOk] at h
  | arr l => simp [scalarOk] at h
  | obj o => simp [scalarOk] at h

theorem catchNonType_exOk {α : Type} {x : Except PyErr (Option α)}
    (h : x ≠ .error .typeError) : exOk (catchNonType x) = true := by
  cases x with
  | ok v => rfl
  | error e =>
    cases e with
    | typeError => exact absurd rfl h
    | valueError => rfl
    | keyError => rfl
    | jsonDecodeError => rfl

theorem arrivalTryBody_ne_typeError (data : JObj)
    (h1 : scalarOkOpt (jget data "job_id") = true)
    (h2 : scalarOk (jgetD data "gpu_request" (Json.num 1)) = true) :
    arrivalTryBody data ≠ .error .typeError := by
  unfold arrivalTryBody
  by_cases hev : (!(jsonIsStr (jget data "event") "job_arrival")) = true
  · rw [if_pos hev]
    simp
  · rw [if_neg hev]
    cases hjid : jget data "job_id" with
    | none => simp
    | some jidv =>
      rw [hjid] at h1
      have hs1 : scalarOk jidv = true := by simpa [scalarOkOpt] using h1
      cases hpi : pyInt jidv with
      | error e =>
        have hne := pyInt_ne_typeError hs1
        rw [hpi] at hne
        simp only []
        intro hcontra
        have : e = PyErr.typeError := by
          by_contra hee
          cases hq : jget data "job_type" <;>
            cases hq2 : jget data "scale_factor" <;>
            simp [hpi, hq, hq2] at hcontra <;> exact hee hcontra
        exact hne (by rw [this])
      | ok jid =>
        cases hq : jget data "job_type" with
        | none => simp [hpi, hq]
        | some jtype =>
          cases hq2 : jget data "scale_factor" with
          | none => simp [hpi, hq, hq2]
          | some sf =>
            cases hpf : pyFloat (jgetD data "gpu_request" (Json.num 1)) with
            | error e =>
              have hne := pyFloat_ne_typeError h2
              rw [hpf] at hne
              simp only [hpi, hq, hq2, hpf]
              intro hcontra
              have he : e = PyErr.typeError := by
                simpa using hcontra
              exact hne (by rw [he])
            | ok greq => simp [hpi, hq, hq2, hpf]

theorem completionTryBody_ne_typeError (data : JObj)
    (h1 : scalarOkOpt (jget data "job_id") = true)
    (h2 : scalarOkOpt (jget data "duration") = true) :
    completionTryBody data ≠ .error .typeError := by
  unfold completionTryBody
  by_cases hev : (!(jsonIsStr (jget data "event") "job_complete")) = true
  · rw [if_pos hev]
    simp
  · rw [if_neg hev]
    cases hjid : jget data "job_id" with
    | none => simp
    | some jidv =>
      rw [hjid] at h1
      have hs1 : scalarOk jidv = true := by simpa [scalarOkOpt] using h1
      cases hpi : pyInt jidv with
      | error e =>
        have hne := pyInt_ne_typeError hs1
        rw [hpi] at hne
        simp only []
        intro hcontra
        have : e = PyErr.typeError := by
          by_contra hee
          cases hq : jget data "duration" <;>
            simp [hpi, hq] at hcontra <;> exact hee hcontra
        exact hne (by rw [this])
      | ok jid =>
        cases hq : jget data "duration" with
        | none => simp [hpi, hq]
        | some durv =>
          rw [hq] at h2
          have hs2 : scalarOk durv = true := by simpa [scalarOkOpt] using h2
          cases hpf : pyFloat durv with
          | error e =>
            have hne := pyFloat_ne_typeError hs2
            rw [hpf] at hne
            simp only [hpi, hq, hpf]
            intro hcontra
            have he : e = PyErr.typeError := by
              simpa using hcontra
            exact hne (by rw [he])
          | ok dur => simp [hpi, hq, hpf]

theorem parseWorkerPieces_exOk {ps : List (List Char)}
    (h : ps.all (fun p => (pyParseIntChars p).isSome) = true) :
    exOk (parseWorkerPieces ps) = true := by
  induction ps with
  | nil => rfl
  | cons p ps ih =>
    simp only [List.all_cons, Bool.and_eq_true] at h
    obtain ⟨h1, h2⟩ := h
    have hrec := ih h2
    unfold parseWorkerPieces
    cases hp : pyParseIntChars p with
    | none => rw [hp] at h1; simp at h1
    | some n =>
      cases hr : parseWorkerPieces ps with
      | error e => rw [hr] at hrec; simp [exOk] at hrec
      | ok ns => simp [exOk, hr]

theorem bulkEntries_exOk {o : JObj}
    (h : o.all (fun kv => (pyParseIntStr kv.1).isSome) = true) :
    exOk (bulkEntries o) = true := by
  induction o with
  | nil => rfl
  | cons kv rest ih =>
    simp only [List.all_cons, Bool.and_eq_true] at h
    obtain ⟨h1, h2⟩ := h
    have hrec := ih h2
    unfold bulkEntries
    cases hp : pyParseIntStr kv.1 with
    | none => rw [hp] at h1; simp at h1
    | some jid =>
      cases hr : bulkEntries rest with
      | error e => rw [hr] at hrec; simp [exOk] at hrec
      | ok results => simp [exOk, hr]

theorem parse_telemetry_exOk (l : Line) :
    exOk (parse_telemetry l) = true := by
  unfold parse_telemetry
  by_cases ht : (!l.hasTELEMETRY) = true
  · rw [if_pos ht]; rfl
  · rw [if_neg ht]
    cases hm : l.telemMatch with
    | none => rfl
    | some payload => cases payload <;> rfl

theorem parse_job_arrival_safe_exOk (l : Line)
    (h : arrivalPayloadSafe l = true) :
    exOk (parse_job_arrival l) = true := by
  unfold parse_job_arrival
  by_cases he : (!(l.hasEVENT && l.hasArrivalTag)) = true
  · rw [if_pos he]; rfl
  · rw [if_neg he]
    cases hm : l.eventMatch with
    | none => rfl
    | some payload =>
      cases payload with
      | none => rfl
      | some data =>
        unfold arrivalPayloadSafe at h
        rw [hm] at h
        simp only [Bool.and_eq_true] at h
        exact catchNonType_exOk (arrivalTryBody_ne_typeError data h.1 h.2)

theorem parse_job_completion_safe_exOk (l : Line)
    (h : completionPayloadSafe l = true) :
    exOk (parse_job_completion l) = true := by
  unfold parse_job_completion
  by_cases he : (!(l.hasEVENT && l.hasCompleteTag)) = true
  · rw [if_pos he]; rfl
  · rw [if_neg he]
    cases hm : l.eventMatch with
    | none => rfl
    | some payload =>
      cases payload with
      | none => rfl
      | some data =>
        unfold completionPayloadSafe at h
        rw [hm] at h
        simp only [Bool.and_eq_true] at h
        exact catchNonType_exOk (completionTryBody_ne_typeError data h.1 h.2)

theorem parse_allocation_safe_exOk (l : Line)
    (h : workerIdsSafe l = true) :
    exOk (parse_allocation l) = true := by
  unfold parse_allocation
  by_cases hmt : (!l.hasMicroTask) = true
  · rw [if_pos hmt]; rfl
  · rw [if_neg hmt]
    cases hj : l.microJobId with
    | none => rfl
    | some jid =>
      cases ht : l.microType with
      | none => rfl
      | some wtype =>
        cases hi : l.microIds with
        | none => rfl
        | some ids =>
          unfold workerIdsSafe at h
          rw [hi] at h
          have hok := parseWorkerPieces_exOk h
          cases hr : parseWorkerPieces (ids.toList.splitOn ',') with
          | error e => rw [hr] at hok; simp [exOk] at hok
          | ok ws =>
            have hr2 : parseWorkerPieces (List.splitOn ',' ids.data) =
                Except.ok ws := hr
            simp [exOk, hr2]

theorem parse_allocation_bulk_safe_exOk (l : Line)
    (h : bulkKeysSafe l = true) :
    exOk (parse_allocation_bulk l) = true := by
  unfold parse_allocation_bulk
  by_cases ha : (!l.hasALLOCATION) = true
  · rw [if_pos ha]; rfl
  · rw [if_neg ha]
    cases hm : l.allocMatch with
    | none => rfl
    | some payload =>
      cases payload with
      | none => rfl
      | some data =>
        unfold bulkKeysSafe at h
        rw [hm] at h
        have hok := bulkEntries_exOk (o := jitems data) (by simpa using h)
        cases hr : bulkEntries (jitems data) with
        | error e => rw [hr] at hok; simp [exOk] at hok
        | ok results => simp [exOk, hr]

/-- C9 (counterexample): the claim as stated is false — concrete malformed
payloads make extractors raise instead of returning None.  A bulk
`ALLOCATION` mapping with the non-numeric job-id key "x" raises an uncaught
`ValueError` from `int(job_id_str)`; a `[Micro-task scheduled]` line whose
worker-ids group matched "1,,2" raises an uncaught `ValueError` from
`int('')`; a job-arrival payload with `"job_id": null` raises an uncaught
`TypeError` from `int(None)` (only JSONDecodeError, KeyError and ValueError
are caught there). -/
theorem claim_C9_counterexample :
    parse_allocation_bulk lineBulkBad = .error .valueError ∧
    parse_allocation lineSingleBad = .error .valueError ∧
    parse_job_arrival lineArrivalBad = .error .typeError :=
  ⟨rfl, rfl, rfl⟩

/-- C9 (amended): malformed payloads are treated as "no match" exactly when
the failure raises one of the caught exception kinds: the telemetry
extractor never raises; the arrival and completion extractors return
without raising whenever the values they coerce are of scalar JSON type
(number, string, bool) — unparseable structure, missing keys and
non-numeric strings are all caught; the single-allocation extractor
returns whenever every comma-separated worker-id piece is numeric; the
bulk extractor returns whenever every job-id key is numeric.  Outside
those conditions extractors can raise (see the counterexample). -/
theorem claim_C9_amended_tolerance :
    (∀ l : Line, exOk (parse_telemetry l) = true) ∧
    (∀ l : Line, arrivalPayloadSafe l = true →
      exOk (parse_job_arrival l) = true) ∧
    (∀ l : Line, completionPayloadSafe l = true →
      exOk (parse_job_completion l) = true) ∧
    (∀ l : Line, workerIdsSafe l = true →
      exOk (parse_allocation l) = true) ∧
    (∀ l : Line, bulkKeysSafe l = true →
      exOk (parse_allocation_bulk l) = true) :=
  ⟨parse_telemetry_exOk, parse_job_arrival_safe_exOk,
    parse_job_completion_safe_exOk, parse_allocation_safe_exOk,
    parse_allocation_bulk_safe_exOk⟩

/-- Witness for the amended C9 at concrete lines (an unparseable telemetry
payload and well-formed arrival/completion/single/bulk lines). -/
theorem claim_C9_amended_tolerance_witness :
    exOk (parse_telemetry lineTelemUnparseable) = true ∧
    exOk (parse_job_arrival lineArrivalGood) = true ∧
    exOk (parse_job_completion lineCompleteGood) = true ∧
    exOk (parse_allocation lineSingleGood) = true ∧
    exOk (parse_allocation_bulk lineBulkGood) = true :=
  ⟨claim_C9_amended_tolerance.1 lineTelemUnparseable,
    claim_C9_amended_tolerance.2.1 lineArrivalGood (by decide),
    claim_C9_amended_tolerance.2.2.1 lineCompleteGood (by decide),
    claim_C9_amended_tolerance.2.2.2.1 lineSingleGood (by decide),
    claim_C9_amended_tolerance.2.2.2.2 lineBulkGood (by decide)⟩

end LogText

/-! ## Lemmas toward C8 -/

namespace Viz

theorem foldl_inv {α σ : Type} (P : σ → Prop) (f : σ → α → σ)
    (l : List α) (s : σ) (h0 : P s)
    (hstep : ∀ s2 a, a ∈ l → P s2 → P (f s2 a)) : P (l.foldl f s) := by
  induction l generalizing s with
  | nil => exact h0
  | cons a l ih =>
    exact ih (f s a) (hstep s a (by simp) h0)
      (fun s2 b hb => hstep s2 b (by simp [hb]))

theorem mem_sInsert_self {α : Type} [BEq α] [LawfulBEq α] (s : List α)
    (x : α) : x ∈ sInsert s x := by
  unfold sInsert
  split
  · rename_i hc
    simpa using hc
  · simp

theorem mem_sInsert_of_mem {α : Type} [BEq α] {s : List α} {x y : α}
    (h : y ∈ s) : y ∈ sInsert s x := by
  unfold sInsert
  split
  · exact h
  · simp [h]

theorem mem_of_mem_sInsert {α : Type} [BEq α] [LawfulBEq α] {s : List α}
    {x y : α} (h : y ∈ sInsert s x) : y ∈ s ∨ y = x := by
  unfold sInsert at h
  split at h
  · exact Or.inl h
  · simpa using h

theorem mem_of_mem_sUnion {α : Type} [BEq α] [LawfulBEq α] {s t : List α}
    {y : α} (h : y ∈ sUnion s t) : y ∈ s ∨ y ∈ t := by
  induction t generalizing s with
  | nil => exact Or.inl h
  | cons a t ih =>
    rcases ih h with h2 | h2
    · rcases mem_of_mem_sInsert h2 with h3 | h3
      · exact Or.inl h3
      · exact Or.inr (by simp [h3])
    · exact Or.inr (by simp [h2])

theorem mem_sDiff_of_mem {α : Type} [BEq α] [LawfulBEq α] {s t : List α}
    {y : α} (hy : y ∈ s) (hn : ¬ y ∈ t) : y ∈ sDiff s t := by
  unfold sDiff
  rw [List.mem_filter]
  refine ⟨hy, ?_⟩
  simpa using hn

theorem findRep_self {κ ν : Type} [BEq κ] [LawfulBEq κ]
    {d : List (κ × ν)} {k : κ} (v : ν)
    (hany : (d.any fun p => p.1 == k) = true) :
    (d.map (fun p => if p.1 == k then (k, v) else p)).find?
      (fun p => p.1 == k) = some (k, v) := by
  induction d with
  | nil => simp at hany
  | cons p rest ih =>
    by_cases hp : (p.1 == k) = true
    · simp [List.find?, hp]
    · rw [Bool.not_eq_true] at hp
      have hp2 := hp
      simp only [List.any_cons, hp2, Bool.false_or] at hany
      simpa [List.find?, hp2] using ih hany

theorem findRep_ne {κ ν : Type} [BEq κ] [LawfulBEq κ]
    {d : List (κ × ν)} {k k2 : κ} (v : ν) (h : ¬ k2 = k) :
    (d.map (fun p => if p.1 == k then (k, v) else p)).find?
      (fun p => p.1 == k2) = d.find? (fun p => p.1 == k2) := by
  induction d with
  | nil => rfl
  | cons p rest ih =>
    by_cases hp : (p.1 == k) = true
    · have hpk : p.1 = k := by simpa using hp
      have hk2 : (k == k2) = false := by
        simp only [beq_eq_false_iff_ne, ne_eq]
        exact fun hh => h hh.symm
      have hk2p : (p.1 == k2) = false := by
        rw [hpk]
        exact hk2
      simpa [List.find?, hp, hk2, hk2p] using ih
    · by_cases hp2 : (p.1 == k2) = true
      · simp [List.find?, hp, hp2]
      · simpa [List.find?, hp, hp2] using ih

theorem dGet_dSet_self {κ ν : Type} [BEq κ] [LawfulBEq κ]
    (d : List (κ × ν)) (k : κ) (v : ν) : dGet (dSet d k v) k = some v := by
  unfold dSet
  split
  · rename_i hany
    unfold dGet
    rw [findRep_self v hany]
    rfl
  · rename_i hany
    rw [Bool.not_eq_true, List.any_eq_false] at hany
    have hnone : d.find? (fun p => p.1 == k) = none := by
      rw [List.find?_eq_none]
      intro x hx
      simpa using hany x hx
    unfold dGet
    rw [List.find?_append, hnone]
    simp [List.find?]

theorem dGet_dSet_ne {κ ν : Type} [BEq κ] [LawfulBEq κ]
    (d : List (κ × ν)) (k k2 : κ) (v : ν) (h : ¬ k2 = k) :
    dGet (dSet d k v) k2 = dGet d k2 := by
  unfold dSet
  split
  · unfold dGet
    rw [findRep_ne v h]
  · unfold dGet
    rw [List.find?_append]
    have hk2 : (k == k2) = false := by
      simp only [beq_eq_false_iff_ne, ne_eq]
      exact fun hh => h hh.symm
    cases hfind : d.find? (fun p => p.1 == k2) with
    | none => simp [List.find?, hk2]
    | some q => simp

theorem mem_fillQuarterSlots {jid : Int} {slots : List Int} {n : Int}
    {v : Int} (h : v ∈ _fill_quarter_slots jid slots n) :
    v ∈ slots ∨ v = jid := by
  induction slots generalizing n with
  | nil => simp [_fill_quarter_slots] at h
  | cons s rest ih =>
    unfold _fill_quarter_slots at h
    split at h
    · exact Or.inl h
    · split at h
      · rcases List.mem_cons.mp h with h2 | h2
        · exact Or.inr h2
        · rcases ih h2 with h3 | h3
          · exact Or.inl (by simp [h3])
          · exact Or.inr h3
      · rcases List.mem_cons.mp h with h2 | h2
        · exact Or.inl (by simp [h2])
        · rcases ih h2 with h3 | h3
          · exact Or.inl (by simp [h3])
          · exact Or.inr h3

theorem mem_processAllocation_allocations {w jid tg : Int} {gr : ℚ}
    {st : AllocState} {v : Int}
    (h : v ∈ (_process_allocation w jid tg gr st).allocations) :
    v ∈ st.allocations ∨ v = jid := by
  unfold _process_allocation at h
  split at h
  · exact Or.inl h
  · simp only [apply_ite AllocState.allocations, ite_self] at h
    split at h
    · exact List.mem_or_eq_of_mem_set h
    · exact Or.inl h

theorem mem_processWorkers_allocations {jid tg : Int} {gr : ℚ}
    {ws : List Int} {st : AllocState} {v : Int}
    (h : v ∈ (processWorkers jid tg gr ws st).allocations) :
    v ∈ st.allocations ∨ v = jid := by
  induction ws generalizing st with
  | nil => exact Or.inl h
  | cons w ws ih =>
    rcases ih h with h2 | h2
    · exact mem_processAllocation_allocations h2
    · exact Or.inr h2

theorem mem_processAllocEvent_allocations {tg : Int}
    {reqs : List (Int × ℚ)} {e : Event} {st : AllocState} {v : Int}
    (h : v ∈ (processAllocEvent tg reqs e st).allocations) :
    v ∈ st.allocations ∨ allocNamesB v e = true := by
  cases e with
  | allocBulk allocs =>
    simp only [processAllocEvent] at h
    have main : ∀ (as : List (Int × List Int)) (st2 : AllocState),
        v ∈ (as.foldl (fun s entry => processWorkers entry.1 tg
          ((dGet reqs entry.1).getD 1) entry.2 s) st2).allocations →
        v ∈ st2.allocations ∨ as.any (fun p => p.1 == v) = true := by
      intro as
      induction as with
      | nil => intro st2 h2; exact Or.inl h2
      | cons a as2 ih =>
        intro st2 h2
        rcases ih _ h2 with h3 | h3
        · rcases mem_processWorkers_allocations h3 with h4 | h4
          · exact Or.inl h4
          · exact Or.inr (by simp [h4])
        · exact Or.inr (by simp [h3])
    rcases main allocs st h with h2 | h2
    · exact Or.inl h2
    · exact Or.inr h2
  | allocSingle job_id worker_ids =>
    rcases mem_processWorkers_allocations h with h2 | h2
    · exact Or.inl h2
    · exact Or.inr (by simp [allocNamesB, h2])
  | arrival a => exact Or.inl h
  | completion c => exact Or.inl h
  | telemetry t => exact Or.inl h
  | other => exact Or.inl h

theorem dGet_dSet_cases {κ ν : Type} [BEq κ] [LawfulBEq κ]
    {d : List (κ × ν)} {k k2 : κ} {v w : ν}
    (h : dGet (dSet d k v) k2 = some w) : w = v ∨ dGet d k2 = some w := by
  by_cases hk : k2 = k
  · subst hk
    rw [dGet_dSet_self] at h
    exact Or.inl (Option.some.inj h).symm
  · rw [dGet_dSet_ne d k k2 v hk] at h
    exact Or.inr h

theorem stepArrival_fields (a : Arrival) (st : ScanState) :
    (stepArrival a st).alloc = st.alloc ∧
    (stepArrival a st).allocations_by_round = st.allocations_by_round ∧
    (stepArrival a st).pending_completed_ids = st.pending_completed_ids ∧
    (stepArrival a st).newly_completed_by_round =
      st.newly_completed_by_round := by
  by_cases hc : (dGet st.job_type_map a.job_type).isSome = true <;>
    simp [stepArrival, hc]

theorem scanInv_stepArrival {log : List Event} {st : ScanState}
    (a : Arrival) (h : ScanInv log st) : ScanInv log (stepArrival a st) := by
  obtain ⟨h1, h2, h3, h4⟩ := h
  obtain ⟨e1, e2, e3, e4⟩ := stepArrival_fields a st
  refine ⟨?_, ?_, ?_, ?_⟩
  · rw [e1]; exact h1
  · rw [e2]; exact h2
  · rw [e3]; exact h3
  · rw [e4]; exact h4

theorem scanInv_stepCompletion {log : List Event} {st : ScanState}
    {c : Completion} (hc : Event.completion c ∈ log) (h : ScanInv log st) :
    ScanInv log (stepCompletion c st) := by
  obtain ⟨h1, h2, h3, h4⟩ := h
  refine ⟨h1, h2, ?_, h4⟩
  intro v hv
  rcases mem_of_mem_sInsert hv with h5 | h5
  · exact h3 v h5
  · exact ⟨Event.completion c, hc, by simp [compNamesB, h5]⟩

theorem stepTelemetryMeta_char (t : Telem) (st : ScanState) :
    (stepTelemetryMeta t st).alloc = st.alloc ∧
    (stepTelemetryMeta t st).allocations_by_round =
      st.allocations_by_round ∧
    ((stepTelemetryMeta t st).pending_completed_ids =
        st.pending_completed_ids ∨
      (stepTelemetryMeta t st).pending_completed_ids = []) ∧
    ((stepTelemetryMeta t st).newly_completed_by_round =
        st.newly_completed_by_round ∨
      (stepTelemetryMeta t st).newly_completed_by_round =
        dSet st.newly_completed_by_round t.round
          st.pending_completed_ids) := by
  by_cases hp : st.pending_completed_ids.isEmpty = true <;>
    by_cases hj : 0 < st.jct_running_count <;>
      simp [stepTelemetryMeta, hp, hj]

theorem scanInv_stepTelemetryMeta {log : List Event} {st : ScanState}
    (t : Telem) (h : ScanInv log st) :
    ScanInv log (stepTelemetryMeta t st) := by
  obtain ⟨h1, h2, h3, h4⟩ := h
  obtain ⟨e1, e2, e3, e4⟩ := stepTelemetryMeta_char t st
  refine ⟨?_, ?_, ?_, ?_⟩
  · rw [e1]; exact h1
  · rw [e2]; exact h2
  · rcases e3 with e | e <;> rw [e]
    · exact h3
    · intro v hv
      exact absurd hv (List.not_mem_nil v)
  · rcases e4 with e | e <;> rw [e]
    · exact h4
    · intro r ids hids
      rcases dGet_dSet_cases hids with h5 | h5
      · subst h5; exact h3
      · exact h4 r ids h5

theorem stepTelemetrySingle_char (tg : Int) (t : Telem) (st : ScanState) :
    (stepTelemetrySingle tg t st).alloc.allocations =
      List.replicate tg.toNat 0 ∧
    ((stepTelemetrySingle tg t st).allocations_by_round =
        dSet st.allocations_by_round t.round st.alloc.allocations ∨
      (stepTelemetrySingle tg t st).allocations_by_round =
        dSet st.allocations_by_round 0 (List.replicate tg.toNat 0)) ∧
    ((stepTelemetrySingle tg t st).pending_completed_ids =
        st.pending_completed_ids ∨
      (stepTelemetrySingle tg t st).pending_completed_ids = []) ∧
    ((stepTelemetrySingle tg t st).newly_completed_by_round =
        st.newly_completed_by_round ∨
      (stepTelemetrySingle tg t st).newly_completed_by_round =
        dSet st.newly_completed_by_round t.round
          st.pending_completed_ids) := by
  by_cases hr : 0 < t.round <;>
    by_cases hs : (st.has_sharing && !st.alloc.gpu_slots.isEmpty) = true <;>
      by_cases hp : st.pending_completed_ids.isEmpty = true <;>
        by_cases hj : 0 < st.jct_running_count <;>
          simp [stepTelemetrySingle, stepTelemetryMeta, hr, hs, hp, hj]

theorem scanInv_stepTelemetrySingle {log : List Event} {st : ScanState}
    {tg : Int} (t : Telem) (h : ScanInv log st) :
    ScanInv log (stepTelemetrySingle tg t st) := by
  obtain ⟨h1, h2, h3, h4⟩ := h
  obtain ⟨e1, e2, e3, e4⟩ := stepTelemetrySingle_char tg t st
  refine ⟨?_, ?_, ?_, ?_⟩
  · rw [e1]
    intro v hv
    exact Or.inl (List.eq_of_mem_replicate hv)
  · rcases e2 with e | e <;> rw [e] <;> intro r vec hvec
    · rcases dGet_dSet_cases hvec with h5 | h5
      · subst h5; exact h1
      · exact h2 r vec h5
    · rcases dGet_dSet_cases hvec with h5 | h5
      · subst h5
        intro v hv
        exact Or.inl (List.eq_of_mem_replicate hv)
      · exact h2 r vec h5
  · rcases e3 with e | e <;> rw [e]
    · exact h3
    · intro v hv
      exact absurd hv (List.not_mem_nil v)
  · rcases e4 with e | e <;> rw [e]
    · exact h4
    · intro r ids hids
      rcases dGet_dSet_cases hids with h5 | h5
      · subst h5; exact h3
      · exact h4 r ids h5

theorem scanInv_singleStep {log : List Event} {tg : Int} {st : ScanState}
    {e : Event} (he : e ∈ log) (h : ScanInv log st) :
    ScanInv log (singleStep tg st e) := by
  cases e with
  | arrival a => exact scanInv_stepArrival a h
  | completion c => exact scanInv_stepCompletion he h
  | allocBulk allocs =>
    obtain ⟨h1, h2, h3, h4⟩ := h
    refine ⟨?_, h2, h3, h4⟩
    intro v hv
    rcases mem_processAllocEvent_allocations hv with h5 | h5
    · exact h1 v h5
    · exact Or.inr ⟨Event.allocBulk allocs, he, h5⟩
  | allocSingle jid ws =>
    obtain ⟨h1, h2, h3, h4⟩ := h
    refine ⟨?_, h2, h3, h4⟩
    intro v hv
    rcases mem_processAllocEvent_allocations hv with h5 | h5
    · exact h1 v h5
    · exact Or.inr ⟨Event.allocSingle jid ws, he, h5⟩
  | telemetry t => exact scanInv_stepTelemetrySingle t h
  | other => exact h

theorem scanInv_initScan (log : List Event) (tg : Int) :
    ScanInv log (initScan tg) := by
  refine ⟨?_, ?_, ?_, ?_⟩
  · intro v hv
    exact Or.inl (List.eq_of_mem_replicate hv)
  · intro r vec hvec
    simp [initScan, dGet] at hvec
  · intro v hv
    exact absurd hv (List.not_mem_nil v)
  · intro r ids hids
    simp [initScan, dGet] at hids

theorem scanInv_singleScan (log : List Event) (tg : Int) :
    ScanInv log (singleScan log tg) := by
  unfold singleScan
  exact foldl_inv (ScanInv log) (singleStep tg) log (initScan tg)
    (scanInv_initScan log tg)
    (fun s2 e he hs => scanInv_singleStep he hs)

theorem scanInv_pass1Step {log : List Event} {st : ScanState} {e : Event}
    (he : e ∈ log) (h : ScanInv log st) : ScanInv log (pass1Step st e) := by
  cases e with
  | arrival a => exact scanInv_stepArrival a h
  | completion c => exact scanInv_stepCompletion he h
  | telemetry t => exact scanInv_stepTelemetryMeta t h
  | allocBulk allocs => exact h
  | allocSingle jid ws => exact h
  | other => exact h

theorem scanInv_parse_jobs (log : List Event) :
    ScanInv log (_parse_jobs_and_telemetry log) := by
  unfold _parse_jobs_and_telemetry
  exact foldl_inv (ScanInv log) pass1Step log (initScan 0)
    (scanInv_initScan log 0)
    (fun s2 e he hs => scanInv_pass1Step he hs)

theorem pass2Step_telemetry_char (tg : Int) (reqs : List (Int × ℚ))
    (sr : Option (List Int)) (hsh : Bool) (st : Pass2State) (t : Telem) :
    (pass2Step tg reqs sr hsh st (.telemetry t)).alloc.allocations =
      List.replicate tg.toNat 0 ∧
    ((pass2Step tg reqs sr hsh st (.telemetry t)).allocations_by_round =
        st.allocations_by_round ∨
      (pass2Step tg reqs sr hsh st (.telemetry t)).allocations_by_round =
        dSet st.allocations_by_round t.round st.alloc.allocations ∨
      (pass2Step tg reqs sr hsh st (.telemetry t)).allocations_by_round =
        dSet st.allocations_by_round 0 (List.replicate tg.toNat 0)) := by
  by_cases hk : st.keep_current = true <;>
    by_cases hr : 0 < t.round <;>
      by_cases hs : (hsh && !st.alloc.gpu_slots.isEmpty) = true <;>
        simp [pass2Step, hk, hr, hs]

theorem pass2Inv_step {log : List Event} {tg : Int}
    {reqs : List (Int × ℚ)} {sr : Option (List Int)} {hsh : Bool}
    {st : Pass2State} {e : Event} (he : e ∈ log) (h : Pass2Inv log st) :
    Pass2Inv log (pass2Step tg reqs sr hsh st e) := by
  obtain ⟨h1, h2⟩ := h
  cases e with
  | allocBulk allocs =>
    simp only [pass2Step]
    split
    · refine ⟨?_, h2⟩
      intro v hv
      rcases mem_processAllocEvent_allocations hv with h5 | h5
      · exact h1 v h5
      · exact Or.inr ⟨Event.allocBulk allocs, he, h5⟩
    · exact ⟨h1, h2⟩
  | allocSingle jid ws =>
    simp only [pass2Step]
    split
    · refine ⟨?_, h2⟩
      intro v hv
      rcases mem_processAllocEvent_allocations hv with h5 | h5
      · exact h1 v h5
      · exact Or.inr ⟨Event.allocSingle jid ws, he, h5⟩
    · exact ⟨h1, h2⟩
  | telemetry t =>
    obtain ⟨e1, e2⟩ := pass2Step_telemetry_char tg reqs sr hsh st t
    refine ⟨?_, ?_⟩
    · rw [e1]
      intro v hv
      exact Or.inl (List.eq_of_mem_replicate hv)
    · rcases e2 with e | e | e <;> rw [e] <;> intro r vec hvec
      · exact h2 r vec hvec
      · rcases dGet_dSet_cases hvec with h5 | h5
        · subst h5; exact h1
        · exact h2 r vec h5
      · rcases dGet_dSet_cases hvec with h5 | h5
        · subst h5
          intro v hv
          exact Or.inl (List.eq_of_mem_replicate hv)
        · exact h2 r vec h5
  | arrival a => exact ⟨h1, h2⟩
  | completion c => exact ⟨h1, h2⟩
  | other => exact ⟨h1, h2⟩

theorem pass2Inv_parse_allocations (log : List Event) (tg : Int)
    (reqs : List (Int × ℚ)) (sr : Option (List Int)) (hsh : Bool) :
    Pass2Inv log (_parse_allocations_for_rounds log tg reqs sr hsh) := by
  unfold _parse_allocations_for_rounds
  apply foldl_inv (Pass2Inv log) (pass2Step tg reqs sr hsh) log
  · refine ⟨?_, ?_⟩
    · intro v hv
      exact Or.inl (List.eq_of_mem_replicate hv)
    · intro r vec hvec
      simp [dGet] at hvec
  · exact fun s2 e he hs => pass2Inv_step he hs

theorem mergeStep_inv {log : List Event} {newly : List (Int × List Int)}
    (hN : ∀ r ids, dGet newly r = some ids → CompOK log ids)
    {st : List (Int × List Int) × List Int × List Int} {r : Int}
    (h : (∀ r2 ids, dGet st.1 r2 = some ids → CompOK log ids) ∧
      CompOK log st.2.1) :
    (∀ r2 ids, dGet (mergeStep newly st r).1 r2 = some ids →
        CompOK log ids) ∧
      CompOK log (mergeStep newly st r).2.1 := by
  obtain ⟨h1, h2⟩ := h
  have hp : CompOK log (match dGet newly r with
      | some ids => if ids.isEmpty then st.2.1 else sUnion st.2.1 ids
      | none => st.2.1) := by
    cases hget : dGet newly r with
    | none => exact h2
    | some ids =>
      by_cases hie : ids.isEmpty = true
      · simp only [hie, if_true]
        exact h2
      · simp only [hie, if_false, Bool.false_eq_true]
        intro v hv
        rcases mem_of_mem_sUnion hv with h5 | h5
        · exact h2 v h5
        · exact hN r ids hget v h5
  unfold mergeStep
  cases hss : st.2.2 with
  | nil =>
    exact ⟨h1, hp⟩
  | cons s rest =>
    by_cases hr : (r == s) = true
    · simp only [hr, if_true]
      split
      · exact ⟨h1, hp⟩
      · refine ⟨?_, ?_⟩
        · intro r2 ids hids
          rcases dGet_dSet_cases hids with h5 | h5
          · subst h5; exact hp
          · exact h1 r2 ids h5
        · intro v hv
          exact absurd hv (List.not_mem_nil v)
    · simp only [hr, Bool.false_eq_true, if_false]
      exact ⟨h1, hp⟩

theorem merge_inv {log : List Event} {newly : List (Int × List Int)}
    (hN : ∀ r ids, dGet newly r = some ids → CompOK log ids)
    (rounds : List Int) (sorted0 : List Int) :
    ∀ r2 ids,
      dGet (rounds.foldl (mergeStep newly) ([], [], sorted0)).1 r2 =
        some ids → CompOK log ids := by
  have main := foldl_inv
    (fun st : List (Int × List Int) × List Int × List Int =>
      (∀ r2 ids, dGet st.1 r2 = some ids → CompOK log ids) ∧
        CompOK log st.2.1)
    (mergeStep newly) rounds ([], [], sorted0)
    ⟨fun r2 ids hids => by simp [dGet] at hids,
      fun v hv => absurd hv (List.not_mem_nil v)⟩
    (fun s2 a ha hinv => mergeStep_inv hN hinv)
  exact main.1

theorem sampleTelemetry_comp {log : List Event} {td : List Telem}
    {newly : List (Int × List Int)} {mr : Nat}
    (hN : ∀ r ids, dGet newly r = some ids → CompOK log ids) :
    ∀ r ids, dGet (sampleTelemetry td newly mr).2.1 r = some ids →
      CompOK log ids := by
  unfold sampleTelemetry
  split
  · exact merge_inv hN _ _
  · exact hN

theorem mem_insLE_self {α : Type} (le : α → α → Bool) (x : α) :
    ∀ l : List α, x ∈ insLE le x l
  | [] => by simp [insLE]
  | y :: ys => by
    unfold insLE
    split
    · exact List.mem_cons_of_mem y (mem_insLE_self le x ys)
    · simp

theorem mem_insLE_of_mem {α : Type} {le : α → α → Bool} {x z : α}
    {l : List α} (h : z ∈ l) : z ∈ insLE le x l := by
  induction l with
  | nil => exact absurd h (List.not_mem_nil z)
  | cons y ys ih =>
    unfold insLE
    split
    · rcases List.mem_cons.mp h with h2 | h2
      · simp [h2]
      · exact List.mem_cons_of_mem y (ih h2)
    · exact List.mem_cons_of_mem x h

theorem mem_of_mem_insLE {α : Type} {le : α → α → Bool} {x z : α}
    {l : List α} (h : z ∈ insLE le x l) : z ∈ l ∨ z = x := by
  induction l with
  | nil =>
    simp only [insLE, List.mem_singleton] at h
    exact Or.inr h
  | cons y ys ih =>
    unfold insLE at h
    split at h
    · rcases List.mem_cons.mp h with h2 | h2
      · exact Or.inl (by simp [h2])
      · rcases ih h2 with h3 | h3
        · exact Or.inl (List.mem_cons_of_mem y h3)
        · exact Or.inr h3
    · rcases List.mem_cons.mp h with h2 | h2
      · exact Or.inr h2
      · exact Or.inl h2

theorem pairwise_insLE {α : Type} {le : α → α → Bool}
    (htot : ∀ a b, le a b = true ∨ le b a = true)
    (htrans : ∀ a b c, le a b = true → le b c = true → le a c = true)
    {l : List α} {x : α}
    (h : l.Pairwise (fun a b => le a b = true)) :
    (insLE le x l).Pairwise (fun a b => le a b = true) := by
  induction l with
  | nil => simp [insLE]
  | cons y ys ih =>
    rw [List.pairwise_cons] at h
    obtain ⟨hy, hys⟩ := h
    unfold insLE
    by_cases hle : le y x = true
    · rw [if_pos hle, List.pairwise_cons]
      refine ⟨?_, ih hys⟩
      intro z hz
      rcases mem_of_mem_insLE hz with h2 | h2
      · exact hy z h2
      · rw [h2]; exact hle
    · rw [if_neg hle, List.pairwise_cons]
      have hxy : le x y = true := by
        rcases htot x y with h2 | h2
        · exact h2
        · exact absurd h2 hle
      refine ⟨?_, by rw [List.pairwise_cons]; exact ⟨hy, hys⟩⟩
      intro z hz
      rcases List.mem_cons.mp hz with h2 | h2
      · rw [h2]; exact hxy
      · exact htrans x y z hxy (hy z h2)

theorem pairwise_isortBy {α : Type} {le : α → α → Bool}
    (htot : ∀ a b, le a b = true ∨ le b a = true)
    (htrans : ∀ a b c, le a b = true → le b c = true → le a c = true)
    (l : List α) :
    (isortBy le l).Pairwise (fun a b => le a b = true) := by
  unfold isortBy
  exact foldl_inv (fun s => s.Pairwise (fun a b => le a b = true))
    (fun acc x => insLE le x acc) l [] List.Pairwise.nil
    (fun s2 a ha hp => pairwise_insLE htot htrans hp)

theorem mem_isortBy {α : Type} {le : α → α → Bool} {l : List α} {y : α}
    (h : y ∈ l) : y ∈ isortBy le l := by
  unfold isortBy
  have main : ∀ (l2 : List α) (acc : List α), y ∈ l2 ∨ y ∈ acc →
      y ∈ l2.foldl (fun acc x => insLE le x acc) acc := by
    intro l2
    induction l2 with
    | nil =>
      intro acc h2
      rcases h2 with h2 | h2
      · exact absurd h2 (List.not_mem_nil y)
      · exact h2
    | cons a l2 ih =>
      intro acc h2
      apply ih
      rcases h2 with h2 | h2
      · rcases List.mem_cons.mp h2 with h3 | h3
        · rw [h3]
          exact Or.inr (mem_insLE_self le a acc)
        · exact Or.inl h3
      · exact Or.inr (mem_insLE_of_mem h2)
  exact main l [] (Or.inl h)

theorem jobsByArrival_pairwise (jobs : List Job) :
    (jobsByArrival jobs).Pairwise
      (fun a b => a.arrival_round ≤ b.arrival_round) := by
  have hp := @pairwise_isortBy Job
    (fun a b => decide (a.arrival_round ≤ b.arrival_round))
    (fun a b => by
      rcases le_total a.arrival_round b.arrival_round with h | h
      · exact Or.inl (by simpa using h)
      · exact Or.inr (by simpa using h))
    (fun a b c h1 h2 => by
      simp only [decide_eq_true_eq] at h1 h2 ⊢
      exact le_trans h1 h2)
    jobs
  exact hp.imp (fun h => by simpa using h)

theorem mem_jobsByArrival {jobs : List Job} {jd : Job} (h : jd ∈ jobs) :
    jd ∈ jobsByArrival jobs :=
  mem_isortBy h

theorem addArrived_active_mono {r : Int} {J : Int} :
    ∀ (l : List Job) (active : List Int), J ∈ active →
      J ∈ (addArrived r l active).2
  | [], _, h => h
  | j :: rest, active, h => by
    unfold addArrived
    split
    · exact addArrived_active_mono rest _ (mem_sInsert_of_mem h)
    · exact h

theorem addArrived_mem_or {r : Int} {jd : Job} :
    ∀ (l : List Job) (active : List Int), jd ∈ l →
      jd ∈ (addArrived r l active).1 ∨
        jd.job_id ∈ (addArrived r l active).2
  | [], _, h => absurd h (List.not_mem_nil jd)
  | j :: rest, active, h => by
    unfold addArrived
    split
    · rcases List.mem_cons.mp h with h2 | h2
      · refine Or.inr ?_
        rw [h2]
        exact addArrived_active_mono rest _ (mem_sInsert_self _ j.job_id)
      · exact addArrived_mem_or rest _ h2
    · exact Or.inl h

theorem addArrived_mem_active {r : Int} {jd : Job} :
    ∀ (l : List Job) (active : List Int),
      l.Pairwise (fun a b => a.arrival_round ≤ b.arrival_round) →
      jd ∈ l → jd.arrival_round ≤ r →
      jd.job_id ∈ (addArrived r l active).2
  | [], _, _, h, _ => absurd h (List.not_mem_nil jd)
  | j :: rest, active, hp, h, hle => by
    rw [List.pairwise_cons] at hp
    obtain ⟨hj, hrest⟩ := hp
    unfold addArrived
    by_cases hjr : j.arrival_round ≤ r
    · rw [if_pos hjr]
      rcases List.mem_cons.mp h with h2 | h2
      · rw [h2]
        exact addArrived_active_mono rest _ (mem_sInsert_self _ j.job_id)
      · exact addArrived_mem_active rest _ hrest h2 hle
    · exfalso
      rcases List.mem_cons.mp h with h2 | h2
      · rw [h2] at hle
        exact hjr hle
      · exact hjr (le_trans (hj jd h2) hle)

theorem addArrived_pairwise {r : Int} :
    ∀ (l : List Job) (active : List Int),
      l.Pairwise (fun a b => a.arrival_round ≤ b.arrival_round) →
      (addArrived r l active).1.Pairwise
        (fun a b => a.arrival_round ≤ b.arrival_round)
  | [], _, _ => List.Pairwise.nil
  | j :: rest, active, hp => by
    unfold addArrived
    split
    · exact addArrived_pairwise rest _ ((List.pairwise_cons.mp hp).2)
    · exact hp

theorem active2_mem {log : List Event} {newly : List (Int × List Int)}
    {J : Int} (hN : ∀ r ids, dGet newly r = some ids → CompOK log ids)
    (hJc : ∀ e ∈ log, compNamesB J e = false)
    {r : Int} {base : List Int} (hJ : J ∈ base) :
    J ∈ (match dGet newly r with
      | some ids => if ids.isEmpty then base else sDiff base ids
      | none => base) := by
  cases hget : dGet newly r with
  | none => exact hJ
  | some ids =>
    by_cases hie : ids.isEmpty = true
    · simp only [hie, if_true]
      exact hJ
    · simp only [hie, Bool.false_eq_true, if_false]
      apply mem_sDiff_of_mem hJ
      intro hmem
      obtain ⟨e, helog, hname⟩ := hN r ids hget J hmem
      rw [hJc e helog] at hname
      exact Bool.false_ne_true hname

theorem notin_running {log : List Event} {abr : List (Int × List Int)}
    {J tg : Int} (hA : ∀ r vec, dGet abr r = some vec → AllocOK log vec)
    (hJa : ∀ e ∈ log, allocNamesB J e = false) (r : Int) :
    J ∉ List.filter (fun j => decide (0 < j))
      ((dGet abr r).getD (List.replicate tg.toNat 0)) := by
  intro hmem
  rw [List.mem_filter] at hmem
  obtain ⟨hin, hpos⟩ := hmem
  have hpos2 : 0 < J := of_decide_eq_true hpos
  cases hget : dGet abr r with
  | none =>
    rw [hget, Option.getD_none] at hin
    have h0 : J = 0 := List.eq_of_mem_replicate hin
    omega
  | some vec =>
    rw [hget, Option.getD_some] at hin
    rcases hA r vec hget J hin with h0 | ⟨e, helog, hname⟩
    · omega
    · rw [hJa e helog] at hname
      exact Bool.false_ne_true hname

theorem buildLoop_queue_mem {log : List Event}
    {gpu_types : List GpuType} {total_gpus : Int}
    {abr : List (Int × List Int)}
    {gsbr : List (Int × List (Int × List Int))}
    {newly : List (Int × List Int)} {avg : List (Int × ℚ)} {J : Int}
    (hA : ∀ r vec, dGet abr r = some vec → AllocOK log vec)
    (hN : ∀ r ids, dGet newly r = some ids → CompOK log ids)
    (hJa : ∀ e ∈ log, allocNamesB J e = false)
    (hJc : ∀ e ∈ log, compNamesB J e = false) :
    ∀ (ts : List Telem) (jba : List Job) (active0 : List Int),
      jba.Pairwise (fun a b => a.arrival_round ≤ b.arrival_round) →
      ((∃ jd ∈ jba, jd.job_id = J ∧ jd.arrival_round = 0) ∨
        J ∈ active0) →
      ∀ i rr q,
        (buildLoop gpu_types total_gpus abr gsbr newly avg ts jba
          active0).1.get? i = some rr →
        (buildLoop gpu_types total_gpus abr gsbr newly avg ts jba
          active0).2.1.get? i = some q →
        0 ≤ rr.round → J ∈ q := by
  intro ts
  induction ts with
  | nil =>
    intro jba a0 hp hJ i rr q h1 h2 hr
    simp [buildLoop] at h1
  | cons t ts ih =>
    intro jba a0 hp hJ i rr q h1 h2 hr
    cases i with
    | zero =>
      simp only [buildLoop, List.get?_cons_zero, Option.some.injEq]
        at h1 h2
      subst h1
      subst h2
      have hr2 : 0 ≤ t.round := by simpa using hr
      rw [List.mem_filter]
      have hcursor : J ∈ (addArrived t.round jba a0).2 := by
        rcases hJ with ⟨jd, hjm, hjid, hjarr⟩ | hJ0
        · rw [← hjid]
          exact @addArrived_mem_active t.round jd jba a0 hp hjm
            (by omega)
        · exact addArrived_active_mono jba a0 hJ0
      refine ⟨active2_mem hN hJc hcursor, ?_⟩
      cases hcc : (List.filter (fun j => decide (0 < j))
          ((dGet abr t.round).getD
            (List.replicate total_gpus.toNat 0))).contains J with
      | false => simp [hcc]
      | true =>
        exfalso
        exact notin_running hA hJa t.round (List.mem_of_elem_eq_true hcc)
    | succ n =>
      simp only [buildLoop, List.get?_cons_succ] at h1 h2
      have hp2 := @addArrived_pairwise t.round jba a0 hp
      have hJ2 : (∃ jd ∈ (addArrived t.round jba a0).1,
          jd.job_id = J ∧ jd.arrival_round = 0) ∨
          J ∈ (addArrived t.round jba a0).2 := by
        rcases hJ with ⟨jd, hjm, hjid, hjarr⟩ | hJ0
        · rcases @addArrived_mem_or t.round jd jba a0 hjm with h3 | h3
          · exact Or.inl ⟨jd, h3, hjid, hjarr⟩
          · rw [hjid] at h3
            exact Or.inr h3
        · exact Or.inr (addArrived_active_mono jba a0 hJ0)
      rcases hJ2 with hJ2 | hJ2
      · exact ih _ _ hp2 (Or.inl hJ2) n rr q h1 h2 hr
      · exact ih _ _ hp2 (Or.inr (active2_mem hN hJc hJ2)) n rr q h1 h2 hr

theorem except_bind_ok {ε α β : Type} {m : Except ε α}
    {f : α → Except ε β} {b : β} (h : m >>= f = Except.ok b) :
    ∃ a, m = Except.ok a ∧ f a = Except.ok b := by
  cases m with
  | error e => exact Except.noConfusion h
  | ok a => exact ⟨a, rfl, h⟩

/-- C8: for every processed log (either loop shape, i.e. any `max_rounds`),
a job whose arrival round is 0 and whose id is never named by any
allocation event and never named by any completion event of the log
appears in the queue list of every finalized round whose round number is
at least 0. -/
theorem claim_C8_round0_unallocated_job_in_every_queue
    (log : List Event) (cluster_spec : String) (max_rounds : Nat)
    (res : PreResult) (J : Int)
    (hres : preprocess_simulation log cluster_spec max_rounds =
      Except.ok res)
    (hjob : ∃ jd ∈ res.jobs, jd.job_id = J ∧ jd.arrival_round = 0)
    (hJa : ∀ e ∈ log, allocNamesB J e = false)
    (hJc : ∀ e ∈ log, compNamesB J e = false) :
    ∀ i rr q, res.rounds.get? i = some rr → res.queues.get? i = some q →
      0 ≤ rr.round → J ∈ q := by
  unfold preprocess_simulation at hres
  obtain ⟨gpu_types, hspec, hbody⟩ := except_bind_ok hres
  split at hbody
  · have hres2 := (Except.ok.inj hbody).symm
    subst hres2
    obtain ⟨jd, hjm, hjid, hjarr⟩ := hjob
    exact buildLoop_queue_mem (pass2Inv_parse_allocations log _ _ _ _).2
      (sampleTelemetry_comp (scanInv_parse_jobs log).2.2.2) hJa hJc _ _ []
      (jobsByArrival_pairwise _)
      (Or.inl ⟨jd, mem_jobsByArrival hjm, hjid, hjarr⟩)
  · have hres2 := (Except.ok.inj hbody).symm
    subst hres2
    obtain ⟨jd, hjm, hjid, hjarr⟩ := hjob
    exact buildLoop_queue_mem (scanInv_singleScan log _).2.1
      (scanInv_singleScan log _).2.2.2 hJa hJc _ _ []
      (jobsByArrival_pairwise _)
      (Or.inl ⟨jd, mem_jobsByArrival hjm, hjid, hjarr⟩)

end Viz

section RatKernelEvalC8

attribute [local semireducible] Rat.mul Rat.inv Rat.add Rat.sub
  Rat.ofScientific

set_option maxRecDepth 20000 in
/-- Witness for C8: on `logW8` (job 7 arrives before the first telemetry
line, is never allocated and never completed) with cluster "4:4:4" and
`max_rounds = 0`, the hypotheses hold and job 7 is in the round-0 queue. -/
theorem claim_C8_round0_unallocated_job_in_every_queue_witness :
    Viz.preprocess_simulation Viz.logW8 "4:4:4" 0 = Except.ok Viz.resW8 ∧
      (7 : Int) ∈ ([7] : List Int) :=
  ⟨by rfl,
    Viz.claim_C8_round0_unallocated_job_in_every_queue Viz.logW8 "4:4:4" 0
      Viz.resW8 7 (by rfl) (by decide) (by decide) (by decide) 0 Viz.rr0W8
      [7] (by rfl) (by rfl) (by decide)⟩

end RatKernelEvalC8

